import Mathlib

/-!
The log page of the administration console (`admin-interface/src/pages/Logs.jsx`).

A shallow embedding of the `Logs` component: its `useState` cells, the client-side
filter `filterLogs`, the fetch `fetchLogs` and the export `exportLogs`, the two effects
with their dependency arrays, the refresh interval, the mock fallback `displayLogs` and
the four statistics cards, the level badge and the row expansion.  A `Session` is one
mounted page; `step` applies one event (a user action, a settled request, the passing of
time) and commits the render that follows, and `run` folds a sequence of events from the
first commit.  The filter and the statistics are also given over untyped records, where
they can throw, and the export format, which the log source writes, is modelled from the
specification.  Two smaller components follow: `handleImageDelete` of the image manager
and `login` of the authentication context.

JavaScript strings are modelled by `String`.  The host built-ins the component calls
(`String.prototype.toLowerCase`, `Date.prototype.toISOString`) are not code of the
repository; they are carried in a `Host` record, so every theorem below holds for
whatever case mapping the host implements.  `asciiHost` is a concrete host used to
evaluate the definitions on examples.
-/

namespace Logs

/-- One log entry as the page reads it (`details` is opaque to every function modelled
here and is left out).  `user_id` is `none` when the field is `null` or `undefined`. -/
structure LogRecord where
  id : Nat
  timestamp : String
  level : String
  service : String
  message : String
  user_id : Option String
  ip_address : Option String
  request_id : Option String
deriving DecidableEq, Repr

/-- The host built-ins used by the component. -/
structure Host where
  toLowerCase : String → String
  toUpperCase : String → String
  toISOString : Int → String

/-- ASCII lower-casing of one string. -/
def asciiLower (s : String) : String :=
  String.mk (s.data.map Char.toLower)

/-- ASCII upper-casing of one string. -/
def asciiUpper (s : String) : String :=
  String.mk (s.data.map Char.toUpper)

/-- A concrete host: ASCII case mapping, decimal rendering of instants. -/
def asciiHost : Host where
  toLowerCase := asciiLower
  toUpperCase := asciiUpper
  toISOString := fun ms => toString ms

/-- A letter with case, for the fragment of Unicode made of the ASCII letters and the
Greek letters U+0391..U+03A9 and U+03B1..U+03C9. -/
def isCased (c : Char) : Bool :=
  c.isAlpha || (913 ≤ c.toNat && c.toNat ≤ 937) || (945 ≤ c.toNat && c.toNat ≤ 969)

/-- Lower-casing of one character of that fragment, out of context. -/
def greekLowerChar (c : Char) : Char :=
  if 913 ≤ c.toNat ∧ c.toNat ≤ 937 ∧ c.toNat ≠ 930 then Char.ofNat (c.toNat + 32) else c.toLower

/-- Lower-casing of a text of that fragment as `String.prototype.toLowerCase` performs it:
character by character, except that a capital sigma (U+03A3) that follows a cased letter
and is not followed by one becomes the final sigma U+03C2 (the `Final_Sigma` rule of
the Unicode special casing; texts without case-ignorable characters). -/
def greekLowerList (prevCased : Bool) : List Char → List Char
  | [] => []
  | c :: rest =>
    (if c.toNat = 931 ∧ prevCased = true ∧ (rest.head?.map isCased).getD false = false then
        Char.ofNat 962
      else greekLowerChar c) :: greekLowerList (isCased c) rest

/-- A host whose case mapping follows the Unicode rules on ASCII and Greek text. -/
def greekHost : Host where
  toLowerCase := fun s => String.mk (greekLowerList false s.data)
  toUpperCase := asciiUpper
  toISOString := fun ms => toString ms

/-- The list form of `includes`: `needle` occurs in `hay` as a contiguous block. -/
def includesList : List Char → List Char → Bool
  | [], needle => needle.isEmpty
  | c :: hay, needle => needle.isPrefixOf (c :: hay) || includesList hay needle

/-- `s.includes(t)`: `t` is a substring of `s`. -/
def includes (s t : String) : Bool :=
  includesList s.data t.data

/-- A toast raised through `useToast`. -/
structure Toast where
  title : String
  description : String
  variant : Option String
deriving DecidableEq, Repr

/-- The `useState` cells of the component (lines 38-46), together with the toasts raised
so far.  `logsRef` stands for the identity of the array held in `logs`: each call of
`setLogs` stores a freshly built array, which React compares by reference when it
decides whether an effect depending on `logs` has to run again. -/
structure State where
  logs : List LogRecord
  logsRef : Nat
  filteredLogs : List LogRecord
  loading : Bool
  searchTerm : String
  selectedService : String
  selectedLevel : String
  selectedTimeRange : String
  autoRefresh : Bool
  expandedRows : List Nat
  toasts : List Toast
deriving DecidableEq, Repr

/-- The initial values passed to `useState` (lines 38-46). -/
def initialState : State where
  logs := []
  logsRef := 0
  filteredLogs := []
  loading := true
  searchTerm := ""
  selectedService := "all"
  selectedLevel := "all"
  selectedTimeRange := "24h"
  autoRefresh := false
  expandedRows := []
  toasts := []

/-- The callback of the search filter (lines 94-98): the lower-cased term is looked for in
the lower-cased message, service and user id; `log.user_id?.…` is `undefined`, hence
falsy, when `user_id` is absent. -/
def matchesSearch (host : Host) (searchTerm : String) (log : LogRecord) : Bool :=
  includes (host.toLowerCase log.message) (host.toLowerCase searchTerm) ||
  includes (host.toLowerCase log.service) (host.toLowerCase searchTerm) ||
  (match log.user_id with
   | some u => includes (host.toLowerCase u) (host.toLowerCase searchTerm)
   | none => false)

/-- `filterLogs` (lines 89-112): copies `logs`, applies the three filters that are
active, and stores the result with `setFilteredLogs`.  `if (searchTerm)` is the
truthiness test of a string: it holds exactly when the string is not empty. -/
def filterLogs (host : Host) (st : State) : State :=
  let filtered := st.logs
  let filtered :=
    if st.searchTerm ≠ "" then filtered.filter (matchesSearch host st.searchTerm) else filtered
  let filtered :=
    if st.selectedService ≠ "all" then
      filtered.filter (fun log => log.service == st.selectedService)
    else filtered
  let filtered :=
    if st.selectedLevel ≠ "all" then
      filtered.filter (fun log => log.level == st.selectedLevel)
    else filtered
  { st with filteredLogs := filtered }

/-- The argument object of `getLogs`; `exportFlag` is the `export` key, absent in the
query of `fetchLogs`. -/
structure GetLogsParams where
  timeRange : String
  service : Option String
  level : Option String
  exportFlag : Bool
deriving DecidableEq, Repr

/-- The body of a response of `getLogs`, as far as the page reads it. -/
structure LogsResponse where
  logs : Option (List LogRecord)
  csv : Option String
deriving DecidableEq, Repr

/-- How the promise returned by `getLogs` settles: it rejects, or it resolves with a
body (`none` when the body is `null` or `undefined`). -/
inductive GetLogsResult where
  | rejected
  | resolved (data : Option LogsResponse)
deriving DecidableEq, Repr

/-- The query of `fetchLogs` (lines 71-75). -/
def fetchParams (st : State) : GetLogsParams where
  timeRange := st.selectedTimeRange
  service := if st.selectedService ≠ "all" then some st.selectedService else none
  level := if st.selectedLevel ≠ "all" then some st.selectedLevel else none
  exportFlag := false

/-- The toast of the `catch` branch of `fetchLogs` (lines 79-83). -/
def fetchErrorToast : Toast where
  title := "Erreur"
  description := "Impossible de charger les logs"
  variant := some "destructive"

/-- `fetchLogs` up to the `await` (line 70): `setLoading(true)`; the request itself is
recorded by the caller. -/
def fetchLogsStart (st : State) : State :=
  { st with loading := true }

/-- `fetchLogs` from the `await` on (lines 76-86), applied to the state current when the
promise settles.  A resolved body gives `setLogs(data.logs || [])`; a rejection, and
equally the `TypeError` of reading `.logs` of an absent body, enters the `catch` branch,
which only raises the toast.  `finally` clears `loading` in both cases. -/
def fetchLogsSettle (st : State) (result : GetLogsResult) : State :=
  match result with
  | GetLogsResult.resolved (some data) =>
    { st with logs := data.logs.getD [], logsRef := st.logsRef + 1, loading := false }
  | _ =>
    { st with toasts := st.toasts ++ [fetchErrorToast], loading := false }

/-- A file handed to the browser by `exportLogs` (lines 123-131): the blob is built from
`data.csv` and the link is clicked with the given `download` name. -/
structure Download where
  filename : String
  csv : Option String
deriving DecidableEq, Repr

/-- The period passed to `setInterval` (line 56), in milliseconds. -/
def refreshPeriod : Nat := 10000

/-- An interval armed with `setInterval` (line 56) and not cleared since: its id, the
instant at which it was armed, and the query sent by the `fetchLogs` closure it calls,
which is the closure of the render whose effect armed it. -/
structure Timer where
  id : Nat
  armedAt : Nat
  query : GetLogsParams
deriving DecidableEq, Repr

/-- One mounted instance of the page.  `timers` are the intervals armed in the browser;
`interval` is the variable of that name in the latest run of the fetch effect, which its
cleanup reads (`none` for `undefined`; the ids handed out by `setInterval` are positive,
hence truthy); `inFlight` are the queries of `fetchLogs` calls that have not settled;
`clock` is the current instant in milliseconds and `requests` lists every call of
`getLogs` made so far with its instant; `exportsInFlight` are the queries of `exportLogs`
calls that have not settled and `downloads` the files handed to the browser so far. -/
structure Session where
  state : State
  timers : List Timer
  interval : Option Nat
  nextTimerId : Nat
  inFlight : List GetLogsParams
  clock : Nat
  requests : List (Nat × GetLogsParams)
  exportsInFlight : List GetLogsParams
  downloads : List Download
deriving DecidableEq, Repr

/-- `clearInterval(id)`. -/
def clearInterval (s : Session) (id : Nat) : Session :=
  { s with timers := s.timers.filter (fun t => t.id != id) }

/-- Cleanup returned by the fetch effect (lines 59-61): `if (interval) clearInterval(interval)`. -/
def fetchEffectCleanup (s : Session) : Session :=
  match s.interval with
  | some id => clearInterval s id
  | none => s

/-- A call of a `fetchLogs` closure whose query is `q`: `loading` is raised (line 70) and
`getLogs(q)` is called (line 71). -/
def fetchLogsWith (s : Session) (q : GetLogsParams) : Session :=
  { s with
    state := fetchLogsStart s.state
    inFlight := s.inFlight ++ [q]
    requests := s.requests ++ [(s.clock, q)] }

/-- A call of `fetchLogs` made from the render of the current state (by the fetch effect,
or by the "Actualiser" button, line 285): `loading` is raised and the query is sent. -/
def callFetchLogs (s : Session) : Session :=
  fetchLogsWith s (fetchParams s.state)

/-- Body of the fetch effect (lines 52-57): `fetchLogs()` is called, and the interval is
armed when `autoRefresh` is on. -/
def fetchEffect (s : Session) : Session :=
  let s1 := callFetchLogs s
  if s.state.autoRefresh then
    { s1 with
      timers := s1.timers ++
        [{ id := s1.nextTimerId, armedAt := s1.clock, query := fetchParams s.state }]
      interval := some s1.nextTimerId
      nextTimerId := s1.nextTimerId + 1 }
  else
    { s1 with interval := none }

/-- The dependency array of the fetch effect (line 62) differs between two renders. -/
def fetchDepsChanged (prev cur : State) : Bool :=
  prev.autoRefresh != cur.autoRefresh || prev.selectedTimeRange != cur.selectedTimeRange

/-- The dependency array of the filter effect (line 66) differs between two renders;
`logs` is compared by the identity of the array. -/
def filterDepsChanged (prev cur : State) : Bool :=
  prev.logsRef != cur.logsRef || prev.searchTerm != cur.searchTerm ||
  prev.selectedService != cur.selectedService || prev.selectedLevel != cur.selectedLevel

/-- Commit of a render that follows a render of `prev`: each effect whose dependencies
changed runs again, the fetch effect after its cleanup.  Both effect bodies read the
state of this render; the cells they write (`loading`, `filteredLogs`) are in no
dependency array, so the render they cause runs no effect. -/
def commit (host : Host) (prev : State) (s : Session) : Session :=
  let s := if fetchDepsChanged prev s.state then fetchEffect (fetchEffectCleanup s) else s
  if filterDepsChanged prev s.state then { s with state := filterLogs host s.state } else s

/-- The first commit: both effects run on the initial state. -/
def mount (host : Host) : Session :=
  let s := fetchEffect
    { state := initialState, timers := [], interval := none, nextTimerId := 1,
      inFlight := [], clock := 0, requests := [], exportsInFlight := [], downloads := [] }
  { s with state := filterLogs host s.state }

/-- The `i`-th pending `fetchLogs` settles with `result`: the rest of `fetchLogs` runs on
the current state and the resulting render is committed. -/
def settle (host : Host) (s : Session) (i : Nat) (result : GetLogsResult) : Session :=
  commit host s.state
    { s with state := fetchLogsSettle s.state result, inFlight := s.inFlight.eraseIdx i }

/-- The callback of the timer `t` runs at the instant `time`: the `fetchLogs` closure it
holds is called, and the render caused by `setLoading(true)` is committed. -/
def timerFires (host : Host) (s : Session) (t : Timer) (time : Nat) : Session :=
  commit host s.state (fetchLogsWith { s with clock := time } t.query)

/-- The instants at which the timer `t` fires after `start` and up to `stop`, which are
the instants `armedAt + k * refreshPeriod` with `k ≥ 1` in that window. -/
def Timer.firings (t : Timer) (start stop : Nat) : List (Nat × Timer) :=
  let lo := (start - t.armedAt) / refreshPeriod
  let hi := (stop - t.armedAt) / refreshPeriod
  (List.range (hi - lo)).map (fun j => (t.armedAt + (lo + 1 + j) * refreshPeriod, t))

/-- `d` milliseconds pass with no other event: the armed timers fire at their instants,
in the order of time. -/
def elapse (host : Host) (s : Session) (d : Nat) : Session :=
  let due := (s.timers.flatMap (fun t => t.firings s.clock (s.clock + d))).insertionSort
    (fun a b => a.1 ≤ b.1)
  let s' := due.foldl (fun acc f => timerFires host acc f.2 f.1) s
  { s' with clock := s.clock + d }

/-- The query of `exportLogs` (lines 116-121). -/
def exportParams (st : State) : GetLogsParams where
  timeRange := st.selectedTimeRange
  service := if st.selectedService ≠ "all" then some st.selectedService else none
  level := if st.selectedLevel ≠ "all" then some st.selectedLevel else none
  exportFlag := true

/-- The toast of the `try` branch of `exportLogs` (lines 133-136). -/
def exportSuccessToast : Toast where
  title := "Succès"
  description := "Logs exportés avec succès"
  variant := none

/-- The toast of the `catch` branch of `exportLogs` (lines 138-142). -/
def exportErrorToast : Toast where
  title := "Erreur"
  description := "Impossible d'exporter les logs"
  variant := some "destructive"

/-- A call of `exportLogs` from the render of the current state (the "Exporter" button,
line 281): `getLogs` is called with the export query (lines 116-121). -/
def callExportLogs (s : Session) : Session :=
  { s with
    exportsInFlight := s.exportsInFlight ++ [exportParams s.state]
    requests := s.requests ++ [(s.clock, exportParams s.state)] }

/-- The `download` name of line 127: the part of the ISO rendering of the current
instant that precedes the first `T`. -/
def exportFilename (host : Host) (now : Nat) : String :=
  "logs-" ++ String.mk ((host.toISOString now).data.takeWhile (fun c => c != 'T')) ++ ".csv"

/-- `exportLogs` from the `await` on (lines 123-143).  A resolved body gives the download
and the success toast; a rejection, and equally the `TypeError` of reading `.csv` of an
absent body, enters the `catch` branch, which only raises the error toast. -/
def exportLogsSettle (host : Host) (s : Session) (i : Nat) (result : GetLogsResult) : Session :=
  match result with
  | GetLogsResult.resolved (some data) =>
    { s with
      exportsInFlight := s.exportsInFlight.eraseIdx i
      downloads := s.downloads ++ [{ filename := exportFilename host s.clock, csv := data.csv }]
      state := { s.state with toasts := s.state.toasts ++ [exportSuccessToast] } }
  | _ =>
    { s with
      exportsInFlight := s.exportsInFlight.eraseIdx i
      state := { s.state with toasts := s.state.toasts ++ [exportErrorToast] } }

/-- `toggleRowExpansion` (lines 146-154).  The `Set` of expanded ids is held as the list
of its members in insertion order: `has` is membership, `delete` removes the member and
`add`, reached only when the id is not a member, appends it. -/
def toggleRowExpansion (st : State) (logId : Nat) : State :=
  let newExpanded := st.expandedRows
  let newExpanded :=
    if logId ∈ newExpanded then newExpanded.filter (fun x => x != logId)
    else newExpanded ++ [logId]
  { st with expandedRows := newExpanded }

/-- An icon element: the component and its class. -/
structure Icon where
  component : String
  className : String
deriving DecidableEq, Repr

/-- `getLevelIcon` (lines 156-169). -/
def getLevelIcon (host : Host) (level : String) : Icon :=
  let key := host.toLowerCase level
  if key = "error" then { component := "XCircle", className := "w-4 h-4 text-red-500" }
  else if key = "warning" then
    { component := "AlertTriangle", className := "w-4 h-4 text-yellow-500" }
  else if key = "info" then { component := "Info", className := "w-4 h-4 text-blue-500" }
  else if key = "success" then
    { component := "CheckCircle", className := "w-4 h-4 text-green-500" }
  else { component := "Info", className := "w-4 h-4 text-gray-500" }

/-- The names of the properties that every plain object inherits from
`Object.prototype` (ECMAScript, with the legacy accessors of its annex B); the value of
each is a function or an object, hence truthy. -/
def objectPrototypeKeys : List String :=
  ["constructor", "hasOwnProperty", "isPrototypeOf", "propertyIsEnumerable",
   "toLocaleString", "toString", "valueOf", "__proto__", "__defineGetter__",
   "__defineSetter__", "__lookupGetter__", "__lookupSetter__"]

/-- The value of a property read on the object `variants`: one of its own strings, or a
value inherited from `Object.prototype` under the given name. -/
inductive VariantValue where
  | string (s : String)
  | inherited (key : String)
deriving DecidableEq, Repr

/-- `variants[key]` for the object literal of lines 172-178: an own property, else a
property inherited through the prototype chain, else `undefined` (`none`). -/
def variants (key : String) : Option VariantValue :=
  if key = "error" then some (VariantValue.string "destructive")
  else if key = "warning" then some (VariantValue.string "secondary")
  else if key = "info" then some (VariantValue.string "default")
  else if key = "success" then some (VariantValue.string "default")
  else if key = "debug" then some (VariantValue.string "outline")
  else if key ∈ objectPrototypeKeys then some (VariantValue.inherited key)
  else none

/-- The badge element returned by `getLevelBadge`. -/
structure Badge where
  variant : VariantValue
  icon : Icon
  text : String
deriving DecidableEq, Repr

/-- `getLevelBadge` (lines 171-186): `variants[level.toLowerCase()] || 'outline'`; every
value found on `variants` is truthy, so the default applies to `undefined` only. -/
def getLevelBadge (host : Host) (level : String) : Badge where
  variant := (variants (host.toLowerCase level)).getD (VariantValue.string "outline")
  icon := getLevelIcon host level
  text := host.toUpperCase level

/-- What can happen to a mounted page. -/
inductive Event where
  | setSearchTerm (v : String)
  | setSelectedService (v : String)
  | setSelectedLevel (v : String)
  | setSelectedTimeRange (v : String)
  | toggleAutoRefresh
  | actualiser
  | settle (i : Nat) (result : GetLogsResult)
  | exporter
  | settleExport (i : Nat) (result : GetLogsResult)
  | elapse (d : Nat)
  | toggleRow (logId : Nat)
deriving DecidableEq, Repr

/-- One event: the state setter or handler runs on the current render and the render
that follows is committed.  The handlers are those of the search input (line 307), the
three selects (lines 312, 326, 339), the "Auto-refresh" button (line 274) and the
"Actualiser" button (line 285), the "Exporter" button (line 281) and the eye button of a
row (line 404); a pending call can settle only if it exists.  The toasts are no state cell, so an export causes no render. -/
def step (host : Host) (s : Session) : Event → Session
  | Event.setSearchTerm v =>
    commit host s.state { s with state := { s.state with searchTerm := v } }
  | Event.setSelectedService v =>
    commit host s.state { s with state := { s.state with selectedService := v } }
  | Event.setSelectedLevel v =>
    commit host s.state { s with state := { s.state with selectedLevel := v } }
  | Event.setSelectedTimeRange v =>
    commit host s.state { s with state := { s.state with selectedTimeRange := v } }
  | Event.toggleAutoRefresh =>
    commit host s.state { s with state := { s.state with autoRefresh := !s.state.autoRefresh } }
  | Event.actualiser =>
    commit host s.state (callFetchLogs s)
  | Event.settle i result =>
    if i < s.inFlight.length then settle host s i result else s
  | Event.exporter =>
    callExportLogs s
  | Event.settleExport i result =>
    if i < s.exportsInFlight.length then exportLogsSettle host s i result else s
  | Event.elapse d =>
    elapse host s d
  | Event.toggleRow logId =>
    commit host s.state { s with state := toggleRowExpansion s.state logId }

/-- The session reached from the first commit by a sequence of events. -/
def run (host : Host) (events : List Event) : Session :=
  events.foldl (step host) (mount host)

/-- The page is closed: React runs the cleanup of the fetch effect. -/
def unmount (s : Session) : Session :=
  fetchEffectCleanup s

/-- The values of the nine `useState` cells (lines 38-46). -/
structure Cells where
  logs : List LogRecord
  filteredLogs : List LogRecord
  loading : Bool
  searchTerm : String
  selectedService : String
  selectedLevel : String
  selectedTimeRange : String
  autoRefresh : Bool
  expandedRows : List Nat
deriving DecidableEq, Repr

/-- The values held by the nine `useState` cells of a state. -/
def State.cells (st : State) : Cells where
  logs := st.logs
  filteredLogs := st.filteredLogs
  loading := st.loading
  searchTerm := st.searchTerm
  selectedService := st.selectedService
  selectedLevel := st.selectedLevel
  selectedTimeRange := st.selectedTimeRange
  autoRefresh := st.autoRefresh
  expandedRows := st.expandedRows

/-- The sample records (lines 213-259), built at each render from the current instant. -/
def mockLogs (host : Host) (now : Int) : List LogRecord :=
  [ { id := 1
      timestamp := host.toISOString now
      level := "info"
      service := "frontend"
      message := "User logged in successfully"
      user_id := some "user123"
      ip_address := some "192.168.1.100"
      request_id := some "req_abc123" },
    { id := 2
      timestamp := host.toISOString (now - 300000)
      level := "error"
      service := "backend"
      message := "Database connection failed"
      user_id := none
      ip_address := some "10.0.1.5"
      request_id := some "req_def456" },
    { id := 3
      timestamp := host.toISOString (now - 600000)
      level := "warning"
      service := "api"
      message := "High memory usage detected"
      user_id := none
      ip_address := some "10.0.1.10"
      request_id := some "req_ghi789" } ]

/-- `displayLogs` (line 262): the filtered view, or the sample records when it is empty. -/
def displayLogs (host : Host) (now : Int) (st : State) : List LogRecord :=
  if st.filteredLogs.length > 0 then st.filteredLogs else mockLogs host now

/-- The "Total Logs" card (line 508). -/
def statTotalLogs (host : Host) (now : Int) (st : State) : Nat :=
  (displayLogs host now st).length

/-- The "Erreurs" card (line 521). -/
def statErreurs (host : Host) (now : Int) (st : State) : Nat :=
  ((displayLogs host now st).filter (fun log => log.level == "error")).length

/-- The "Avertissements" card (line 535). -/
def statAvertissements (host : Host) (now : Int) (st : State) : Nat :=
  ((displayLogs host now st).filter (fun log => log.level == "warning")).length

/-- The "Services Actifs" card (line 549): the size of the set of service values. -/
def statServicesActifs (host : Host) (now : Int) (st : State) : Nat :=
  ((displayLogs host now st).map (fun log => log.service)).dedup.length

/-- The search criterion in the words of the specification: the lower-cased term is a
substring of the lower-cased message, of the lower-cased service, or of the lower-cased
user id of a record that has one. -/
def Spec.termMatches (host : Host) (term : String) (r : LogRecord) : Prop :=
  (host.toLowerCase term).data <:+: (host.toLowerCase r.message).data ∨
  (host.toLowerCase term).data <:+: (host.toLowerCase r.service).data ∨
  ∃ u, r.user_id = some u ∧ (host.toLowerCase term).data <:+: (host.toLowerCase u).data

/-- The conjunction of the three filter dimensions, each one vacuous when it is not
active (empty term, service "all", level "all"). -/
def Spec.keeps (host : Host) (st : State) (r : LogRecord) : Bool :=
  (decide (st.searchTerm = "") || matchesSearch host st.searchTerm r) &&
  (decide (st.selectedService = "all") || r.service == st.selectedService) &&
  (decide (st.selectedLevel = "all") || r.level == st.selectedLevel)

/-- The state with the filtered view blanked. -/
def State.skel (st : State) : State :=
  { st with filteredLogs := [] }

/-- The session with the filtered view and the downloads blanked: what is left does not
depend on the host built-ins. -/
def Session.skeleton (s : Session) : Session :=
  { s with state := s.state.skel, downloads := [] }

/-! ### The filter and the statistics over untyped records

The definitions above take records whose fields have the expected types.  The ones
below run the same code over parsed values of any type, where a property read or a
method call can throw. -/

/-- A value found in a field of a parsed record. -/
inductive JsValue where
  | undefined
  | null
  | string (s : String)
  | number (n : Int)
  | boolean (b : Bool)
  | object (ref : Nat)
deriving DecidableEq, Repr

/-- A parsed record: any value may stand in any field (`undefined` for a missing one). -/
structure RawLog where
  id : JsValue
  timestamp : JsValue
  level : JsValue
  service : JsValue
  message : JsValue
  user_id : JsValue
  ip_address : JsValue
  request_id : JsValue
deriving DecidableEq, Repr

/-- An exception thrown by the engine. -/
inductive JsError where
  | typeError (message : String)
deriving DecidableEq, Repr

/-- `log.prop` for an element of the array: reading a property of `null` or `undefined`
(`none`) throws. -/
def readEntry (entry : Option RawLog) (prop : RawLog → JsValue) : Except JsError JsValue :=
  match entry with
  | some log => Except.ok (prop log)
  | none => Except.error (JsError.typeError "Cannot read properties of undefined")

/-- `v.toLowerCase()`: defined on strings; on `null` and `undefined` the property read
throws, on any other parsed value `toLowerCase` is not a function. -/
def callToLowerCase (host : Host) (v : JsValue) : Except JsError String :=
  match v with
  | JsValue.string s => Except.ok (host.toLowerCase s)
  | JsValue.undefined => Except.error (JsError.typeError "Cannot read properties of undefined")
  | JsValue.null => Except.error (JsError.typeError "Cannot read properties of null")
  | _ => Except.error (JsError.typeError "toLowerCase is not a function")

/-- `Array.prototype.filter` with a callback that can throw: the elements are visited in
order and the first exception ends the call. -/
def filterThrowing {α : Type} (p : α → Except JsError Bool) : List α → Except JsError (List α)
  | [] => Except.ok []
  | a :: rest =>
    match p a with
    | Except.error e => Except.error e
    | Except.ok keep =>
      match filterThrowing p rest with
      | Except.error e => Except.error e
      | Except.ok kept => Except.ok (if keep then a :: kept else kept)

/-- `Array.prototype.map` with a callback that can throw. -/
def mapThrowing {α β : Type} (f : α → Except JsError β) : List α → Except JsError (List β)
  | [] => Except.ok []
  | a :: rest =>
    match f a with
    | Except.error e => Except.error e
    | Except.ok b =>
      match mapThrowing f rest with
      | Except.error e => Except.error e
      | Except.ok bs => Except.ok (b :: bs)

/-- The callback of the search filter (lines 94-98) over a parsed record: the three
operands of `||` are evaluated from the left, each only if the ones before it are
falsy; `log.user_id?.…` is `undefined` when `user_id` is `null` or `undefined`. -/
def rawMatchesSearch (host : Host) (searchTerm : String) (entry : Option RawLog) :
    Except JsError Bool :=
  match readEntry entry (fun log => log.message) with
  | Except.error e => Except.error e
  | Except.ok message =>
    match callToLowerCase host message with
    | Except.error e => Except.error e
    | Except.ok m =>
      if includes m (host.toLowerCase searchTerm) then Except.ok true
      else
        match readEntry entry (fun log => log.service) with
        | Except.error e => Except.error e
        | Except.ok service =>
          match callToLowerCase host service with
          | Except.error e => Except.error e
          | Except.ok sv =>
            if includes sv (host.toLowerCase searchTerm) then Except.ok true
            else
              match readEntry entry (fun log => log.user_id) with
              | Except.error e => Except.error e
              | Except.ok JsValue.undefined => Except.ok false
              | Except.ok JsValue.null => Except.ok false
              | Except.ok user =>
                match callToLowerCase host user with
                | Except.error e => Except.error e
                | Except.ok u => Except.ok (includes u (host.toLowerCase searchTerm))

/-- The body of `filterLogs` (lines 90-109) over parsed records: the value passed to
`setFilteredLogs`, or the exception that escapes. -/
def rawFilterLogs (host : Host) (logs : List (Option RawLog))
    (searchTerm selectedService selectedLevel : String) :
    Except JsError (List (Option RawLog)) :=
  match (if searchTerm ≠ "" then filterThrowing (rawMatchesSearch host searchTerm) logs
         else Except.ok logs) with
  | Except.error e => Except.error e
  | Except.ok filtered =>
    match (if selectedService ≠ "all" then
             filterThrowing (fun entry =>
               match readEntry entry (fun log => log.service) with
               | Except.error e => Except.error e
               | Except.ok v => Except.ok (v == JsValue.string selectedService)) filtered
           else Except.ok filtered) with
    | Except.error e => Except.error e
    | Except.ok filtered =>
      if selectedLevel ≠ "all" then
        filterThrowing (fun entry =>
          match readEntry entry (fun log => log.level) with
          | Except.error e => Except.error e
          | Except.ok v => Except.ok (v == JsValue.string selectedLevel)) filtered
      else Except.ok filtered

/-- A typed record as a parsed one. -/
def ofRecord (r : LogRecord) : RawLog where
  id := JsValue.number r.id
  timestamp := JsValue.string r.timestamp
  level := JsValue.string r.level
  service := JsValue.string r.service
  message := JsValue.string r.message
  user_id := match r.user_id with
    | some u => JsValue.string u
    | none => JsValue.null
  ip_address := match r.ip_address with
    | some a => JsValue.string a
    | none => JsValue.null
  request_id := match r.request_id with
    | some q => JsValue.string q
    | none => JsValue.null

/-- `displayLogs` (line 262) over parsed records. -/
def rawDisplayLogs (host : Host) (now : Int) (filtered : List (Option RawLog)) :
    List (Option RawLog) :=
  if filtered.length > 0 then filtered else (mockLogs host now).map (fun r => some (ofRecord r))

/-- The four numbers of the statistics cards. -/
structure Statistics where
  totalLogs : Nat
  erreurs : Nat
  avertissements : Nat
  servicesActifs : Nat
deriving DecidableEq, Repr

/-- The four expressions of the statistics cards (lines 508, 521, 535, 549) over parsed
records, evaluated in the order of the page. -/
def rawStatistics (display : List (Option RawLog)) : Except JsError Statistics :=
  match filterThrowing (fun entry =>
      match readEntry entry (fun log => log.level) with
      | Except.error e => Except.error e
      | Except.ok v => Except.ok (v == JsValue.string "error")) display with
  | Except.error e => Except.error e
  | Except.ok errors =>
    match filterThrowing (fun entry =>
        match readEntry entry (fun log => log.level) with
        | Except.error e => Except.error e
        | Except.ok v => Except.ok (v == JsValue.string "warning")) display with
    | Except.error e => Except.error e
    | Except.ok warnings =>
      match mapThrowing (fun entry => readEntry entry (fun log => log.service)) display with
      | Except.error e => Except.error e
      | Except.ok services =>
        Except.ok
          { totalLogs := display.length
            erreurs := errors.length
            avertissements := warnings.length
            servicesActifs := services.dedup.length }

/-- Well-formed input in the words of the claim: the element is a record whose message,
service and level are strings and whose user id is a string or absent. -/
def Spec.wellFormed : Option RawLog → Bool
  | some log =>
    (match log.message with | JsValue.string _ => true | _ => false) &&
    (match log.service with | JsValue.string _ => true | _ => false) &&
    (match log.level with | JsValue.string _ => true | _ => false) &&
    (match log.user_id with
      | JsValue.string _ => true
      | JsValue.undefined => true
      | JsValue.null => true
      | _ => false)
  | none => false

/-! ### The exporter

`exportLogs` hands `data.csv` to the browser as it is: the text is built by the log
source, whose serialiser is not among the sources of this development.  It is modelled
here from the specification (section 4.5 and section 6: one row per record, fixed column
order, comma-separated with double-quote escaping), together with a reader of that
format. -/

/-- Modelled from the spec: the field separator of the export format, the comma; the
serialiser of the log source is missing from the sources. -/
def Csv.comma : Char := Char.ofNat 44

/-- Modelled from the spec: the quoting character of the export format, the double
quote; the serialiser of the log source is missing from the sources. -/
def Csv.quote : Char := Char.ofNat 34

/-- Modelled from the spec: the row terminator of the export format, the line feed; the
serialiser of the log source is missing from the sources. -/
def Csv.lineFeed : Char := Char.ofNat 10

/-- Modelled from the spec: the carriage return, which like the line feed is a newline
embedded in a field; the serialiser of the log source is missing from the sources. -/
def Csv.carriageReturn : Char := Char.ofNat 13

/-- Modelled from the spec: the characters that force a field to be quoted, which are
the separator, the quote and the newlines; the serialiser is missing from the sources. -/
def Csv.special (c : Char) : Bool :=
  c == Csv.comma || c == Csv.quote || c == Csv.lineFeed || c == Csv.carriageReturn

/-- Modelled from the spec: double-quote escaping, each quote of the field is written
twice; the serialiser is missing from the sources. -/
def Csv.escape (field : List Char) : List Char :=
  field.flatMap (fun c => if c = Csv.quote then [Csv.quote, Csv.quote] else [c])

/-- Modelled from the spec: one field of the export, quoted and escaped when it holds a
separator, a quote or a newline; the serialiser is missing from the sources. -/
def Csv.field (f : String) : List Char :=
  if f.data.any Csv.special then Csv.quote :: (Csv.escape f.data ++ [Csv.quote]) else f.data

/-- Modelled from the spec: one row of the export, its fields separated by commas and
ended by a line feed; the serialiser is missing from the sources. -/
def Csv.row : List String → List Char
  | [] => [Csv.lineFeed]
  | [f] => Csv.field f ++ [Csv.lineFeed]
  | f :: g :: rest => Csv.field f ++ Csv.comma :: Csv.row (g :: rest)

/-- Modelled from the spec: the fixed column order of the export (timestamp, level,
service, message, userId, sourceAddress, requestId), an absent optional field giving an
empty column and `details` being left out; the serialiser is missing from the sources. -/
def Csv.columns (r : LogRecord) : List String :=
  [r.timestamp, r.level, r.service, r.message, r.user_id.getD "", r.ip_address.getD "",
    r.request_id.getD ""]

/-- Modelled from the spec: the exporter, one row per record; the serialiser of the log
source, which builds `data.csv`, is missing from the sources. -/
def exportCsv (records : List LogRecord) : String :=
  String.mk (records.flatMap (fun r => Csv.row (Csv.columns r)))

/-- Modelled from the spec: the states of a reader of the export format (at the start of
a field, inside a bare field, inside a quoted field, after a quote met inside a quoted
field); the conformant reader the spec refers to is no part of the sources. -/
inductive Csv.Mode where
  | fieldStart
  | unquoted
  | quoted
  | quoteSeen
deriving DecidableEq, Repr

/-- Modelled from the spec: the reader while it reads: the rows and the fields of the
current row completed so far, the characters of the current field, and the mode; the
conformant reader the spec refers to is no part of the sources. -/
structure Csv.Reader where
  rows : List (List String)
  row : List String
  field : List Char
  mode : Csv.Mode
deriving DecidableEq, Repr

/-- Modelled from the spec: the reader closes the current field; no part of the sources. -/
def Csv.endField (p : Csv.Reader) : Csv.Reader :=
  { rows := p.rows, row := p.row ++ [String.mk p.field], field := [], mode := Csv.Mode.fieldStart }

/-- Modelled from the spec: the reader closes the current row; no part of the sources. -/
def Csv.endRow (p : Csv.Reader) : Csv.Reader :=
  { rows := p.rows ++ [p.row ++ [String.mk p.field]], row := [], field := [],
    mode := Csv.Mode.fieldStart }

/-- Modelled from the spec: the reader adds a character to the current field; no part of
the sources. -/
def Csv.push (p : Csv.Reader) (c : Char) (m : Csv.Mode) : Csv.Reader :=
  { rows := p.rows, row := p.row, field := p.field ++ [c], mode := m }

/-- Modelled from the spec: the reader reads one character.  Outside quotes a comma ends
the field and a line feed ends the row; a quote at the start of a field opens a quoted
field, inside which a doubled quote is one quote and a single quote closes the field.
The conformant reader the spec refers to is no part of the sources. -/
def Csv.step (p : Csv.Reader) (c : Char) : Csv.Reader :=
  match p.mode with
  | Csv.Mode.fieldStart =>
    if c = Csv.quote then { p with mode := Csv.Mode.quoted }
    else if c = Csv.comma then Csv.endField p
    else if c = Csv.lineFeed then Csv.endRow p
    else Csv.push p c Csv.Mode.unquoted
  | Csv.Mode.unquoted =>
    if c = Csv.comma then Csv.endField p
    else if c = Csv.lineFeed then Csv.endRow p
    else Csv.push p c Csv.Mode.unquoted
  | Csv.Mode.quoted =>
    if c = Csv.quote then { p with mode := Csv.Mode.quoteSeen }
    else Csv.push p c Csv.Mode.quoted
  | Csv.Mode.quoteSeen =>
    if c = Csv.quote then Csv.push p Csv.quote Csv.Mode.quoted
    else if c = Csv.comma then Csv.endField p
    else if c = Csv.lineFeed then Csv.endRow p
    else Csv.push p c Csv.Mode.unquoted

/-- Modelled from the spec: the end of the input, where a row left open is closed; no
part of the sources. -/
def Csv.finish (p : Csv.Reader) : List (List String) :=
  if p.mode = Csv.Mode.fieldStart ∧ p.row = [] ∧ p.field = [] then p.rows
  else p.rows ++ [p.row ++ [String.mk p.field]]

/-- Modelled from the spec: the conformant reader of the export format, which gives the
rows of a buffer as lists of field values; no part of the sources. -/
def parseCsv (s : String) : List (List String) :=
  Csv.finish (s.data.foldl Csv.step
    { rows := [], row := [], field := [], mode := Csv.Mode.fieldStart })

/-- The timers agree with a live flag `b`: with the flag off no interval is armed and the
`interval` variable of the latest effect run is undefined; with the flag on exactly one
interval is armed and that variable holds its id. -/
def TimerShape (b : Bool) (s : Session) : Prop :=
  (b = false ∧ s.timers = [] ∧ s.interval = none) ∨
  (b = true ∧ ∃ t, s.timers = [t] ∧ s.interval = some t.id)

/-- The timers agree with the `autoRefresh` cell of the session. -/
def TimerInv (s : Session) : Prop :=
  TimerShape s.state.autoRefresh s

/-! ### Concrete inputs used to evaluate the definitions -/

/-- A record with the given id, level, service and message and no user. -/
def sampleRecord (id : Nat) (level service message : String) : LogRecord where
  id := id
  timestamp := "2024-01-01T00:00:00.000Z"
  level := level
  service := service
  message := message
  user_id := none
  ip_address := none
  request_id := none

/-- The scenario of the specification: the term "health" over two records. -/
def healthScenario : State :=
  { initialState with
    logs := [sampleRecord 1 "info" "backend" "health check ok",
             sampleRecord 2 "info" "frontend" "login"]
    searchTerm := "health" }

/-- A record whose service is spelled with a capital, next to one spelled as the
selectable value, under the service selection "backend". -/
def serviceCaseScenario : State :=
  { initialState with
    logs := [sampleRecord 1 "info" "Backend" "started",
             sampleRecord 2 "info" "backend" "started"]
    selectedService := "backend" }

/-- Two records are stored and the term "zzz" occurs in neither. -/
def noMatchScenario : State :=
  filterLogs asciiHost { healthScenario with searchTerm := "zzz" }

/-- A filtered view holding one record of level "info". -/
def infoViewScenario : State :=
  filterLogs asciiHost { initialState with logs := [sampleRecord 1 "info" "api" "ready"] }

/-- The first fetch has resolved with an empty list of records. -/
def emptyFetchScenario : Session :=
  settle asciiHost (mount asciiHost) 0
    (GetLogsResult.resolved (some { logs := some [], csv := none }))

/-- A filtered view of four records over three services and three levels. -/
def mixedViewScenario : State :=
  filterLogs asciiHost
    { initialState with
      logs := [sampleRecord 1 "error" "backend" "boom",
               sampleRecord 2 "warning" "api" "slow",
               sampleRecord 3 "info" "api" "ready",
               sampleRecord 4 "error" "nginx" "bad gateway"] }

/-- The first fetch has resolved with four records. -/
def loadedScenario : Session :=
  run asciiHost
    [Event.settle 0 (GetLogsResult.resolved (some
      { logs := some [sampleRecord 1 "error" "backend" "health check failed",
                      sampleRecord 2 "warning" "api" "slow",
                      sampleRecord 3 "info" "api" "ready",
                      sampleRecord 4 "error" "nginx" "bad gateway"]
        csv := none }))]

/-- Four records are stored and "Actualiser" has been clicked: one fetch is pending. -/
def refetchScenario : Session :=
  step asciiHost loadedScenario Event.actualiser

/-- Live mode is switched on at instant 0, 25000 ms pass, live mode is switched off. -/
def liveScenario : List Event :=
  [Event.toggleAutoRefresh, Event.elapse 25000, Event.toggleAutoRefresh]

/-- Live mode is switched on, then the service "backend" is selected, then one period
passes. -/
def staleScenario : List Event :=
  [Event.toggleAutoRefresh, Event.setSelectedService "backend", Event.elapse 10000]

/-- A filtered view holding one record whose level is spelled "ERROR". -/
def upperErrorScenario : State :=
  filterLogs asciiHost { initialState with logs := [sampleRecord 1 "ERROR" "backend" "boom"] }

/-- A filtered view holding a record whose level is spelled "ERROR" and one whose level
is spelled "error". -/
def mixedCaseScenario : State :=
  filterLogs asciiHost
    { initialState with
      logs := [sampleRecord 1 "ERROR" "backend" "boom", sampleRecord 2 "error" "api" "bang"] }

/-- The Greek text alpha, sigma in capitals (U+0391 U+03A3). -/
def alphaSigma : String :=
  String.mk [Char.ofNat 913, Char.ofNat 931]

/-- The Greek text alpha, sigma, alpha in capitals (U+0391 U+03A3 U+0391). -/
def alphaSigmaAlpha : String :=
  String.mk [Char.ofNat 913, Char.ofNat 931, Char.ofNat 913]

/-- One record whose message is alpha, sigma, alpha in capitals. -/
def greekScenario : State :=
  { initialState with logs := [sampleRecord 1 "info" "api" alphaSigmaAlpha] }

/-- Two well-formed parsed records, one without a user id field. -/
def rawScenario : List (Option RawLog) :=
  [some { ofRecord (sampleRecord 1 "error" "backend" "health check failed") with
          user_id := JsValue.undefined },
   some { ofRecord (sampleRecord 2 "info" "frontend" "login") with
          user_id := JsValue.string "user123" }]

/-- A parsed record whose message is `null`. -/
def malformedScenario : List (Option RawLog) :=
  [some { ofRecord (sampleRecord 1 "error" "backend" "x") with message := JsValue.null }]

/-- A record whose message holds a comma, quotes and a newline, followed by a record
with optional fields present. -/
def exportScenario : List LogRecord :=
  [{ sampleRecord 1 "error" "backend" "disk full, \"sda\" retrying\nsecond line" with
     ip_address := some "10.0.1.5" },
   { sampleRecord 2 "info" "frontend" "login" with
     user_id := some "user123", request_id := some "req_abc123" }]

end Logs

/-! The image manager of the public site (`services/frontend/src/pages/ImageManager.jsx`). -/

namespace ImageManager

/-- One image of the list, with the fields the page and the gallery read. -/
structure Image where
  id : Nat
  url : String
  filename : String
  size : Nat
  mime_type : String
deriving DecidableEq, Repr

/-- The `useState` cells of the component (lines 6-10). -/
structure State where
  images : List Image
  loading : Bool
  error : Option String
  selectedImage : Option Image
  showUpload : Bool
deriving DecidableEq, Repr

/-- `handleImageDelete` (lines 43-57): the updater passed to `setImages` filters the
current list, and the selection is cleared when `selectedImage?.id === imageId`, which
is false when nothing is selected. -/
def handleImageDelete (st : State) (imageId : Nat) : State :=
  { st with
    images := st.images.filter (fun img => img.id != imageId)
    selectedImage :=
      match st.selectedImage with
      | some sel => if sel.id = imageId then none else some sel
      | none => none }

/-- An image with the given id and file name. -/
def sampleImage (id : Nat) (filename : String) : Image where
  id := id
  url := "/images/" ++ filename
  filename := filename
  size := 1024
  mime_type := "image/png"

/-- Three images, the second one selected. -/
def galleryScenario : State where
  images := [sampleImage 1 "a.png", sampleImage 2 "b.png", sampleImage 3 "c.png"]
  loading := false
  error := none
  selectedImage := some (sampleImage 2 "b.png")
  showUpload := false

end ImageManager

/-! The authentication context of the console (`admin-interface/src/contexts/AuthContext.jsx`). -/

namespace AuthContext

/-- The user object held in state. -/
structure User where
  username : String
  role : Option String
deriving DecidableEq, Repr

/-- The parsed body of the login response, as `login` reads it: the truthiness of
`data.success`, and `data.token`, `data.user`, `data.error` when present. -/
structure LoginBody where
  success : Bool
  token : Option String
  user : Option User
  error : Option String
deriving DecidableEq, Repr

/-- How the request of `login` ends: `fetch` rejects; or the response arrives with its
`ok` flag and `response.json()` rejects, or resolves with a body (`none` for the JSON
value `null`). -/
inductive LoginOutcome where
  | networkError
  | parseError (ok : Bool)
  | parsed (ok : Bool) (data : Option LoginBody)
deriving DecidableEq, Repr

/-- The cells of the provider (lines 14-16) and the `admin_token` entry of
`localStorage`. -/
structure State where
  user : Option User
  token : Option String
  loading : Bool
  storedToken : Option String
deriving DecidableEq, Repr

/-- The object returned by `login`. -/
structure LoginResult where
  success : Bool
  error : Option String
deriving DecidableEq, Repr

/-- Truthiness of an optional string: present and not empty. -/
def truthy : Option String → Bool
  | some s => s != ""
  | none => false

/-- `login` (lines 59-81), given how its request ends; the password only enters the body
of the request.  Reading `data.success` of a `null` body throws, which the `catch`
branch reports as a network error like the two rejections. -/
def login (st : State) (username : String) (outcome : LoginOutcome) : State × LoginResult :=
  match outcome with
  | LoginOutcome.parsed ok (some data) =>
    if ok && data.success && truthy data.token then
      ({ st with
          storedToken := data.token
          token := data.token
          user := some (data.user.getD { username := username, role := none }) },
        { success := true, error := none })
    else
      (st, { success := false,
             error := some (if truthy data.error then data.error.getD "" else "Login failed") })
  | _ =>
    (st, { success := false, error := some "Network error" })

/-- The condition of line 69 in the words of the claim: the response is ok and its body
carries a truthy success flag and a truthy token. -/
def Spec.accepted : LoginOutcome → Bool
  | LoginOutcome.parsed ok (some data) => ok && data.success && truthy data.token
  | _ => false

/-- A session that holds an earlier token. -/
def signedInScenario : State where
  user := some { username := "admin", role := some "admin" }
  token := some "old-token"
  loading := false
  storedToken := some "old-token"

end AuthContext

namespace Logs

/-! ## The filter -/

theorem includesList_iff (hay needle : List Char) :
    includesList hay needle = true ↔ needle <:+: hay := by
  induction hay with
  | nil =>
    cases needle <;> simp [includesList]
  | cons c hay ih =>
    rw [includesList, Bool.or_eq_true, ih, List.infix_cons_iff, List.isPrefixOf_iff_prefix]

theorem includes_iff (s t : String) : includes s t = true ↔ t.data <:+: s.data :=
  includesList_iff s.data t.data

theorem matchesSearch_iff (host : Host) (term : String) (r : LogRecord) :
    matchesSearch host term r = true ↔ Spec.termMatches host term r := by
  unfold matchesSearch Spec.termMatches
  cases hu : r.user_id <;> simp [includes_iff, or_assoc]

theorem filteredLogs_eq_filter (host : Host) (st : State) :
    (filterLogs host st).filteredLogs = st.logs.filter (Spec.keeps host st) := by
  have hk : Spec.keeps host st = fun r =>
      ((decide (st.searchTerm = "") || matchesSearch host st.searchTerm r) &&
      (decide (st.selectedService = "all") || r.service == st.selectedService) &&
      (decide (st.selectedLevel = "all") || r.level == st.selectedLevel)) := rfl
  rw [hk]
  unfold filterLogs
  by_cases h1 : st.searchTerm = "" <;> by_cases h2 : st.selectedService = "all" <;>
    by_cases h3 : st.selectedLevel = "all" <;>
    simp [h1, h2, h3, List.filter_filter, Bool.and_comm, Bool.and_left_comm]

theorem keeps_congr (host : Host) (st st' : State) (h1 : st'.searchTerm = st.searchTerm)
    (h2 : st'.selectedService = st.selectedService)
    (h3 : st'.selectedLevel = st.selectedLevel) : Spec.keeps host st' = Spec.keeps host st := by
  funext r
  simp [Spec.keeps, h1, h2, h3]

theorem mem_filteredLogs_iff (host : Host) (st : State) (r : LogRecord) :
    r ∈ (filterLogs host st).filteredLogs ↔
      (r ∈ st.logs ∧
        (st.searchTerm = "" ∨ matchesSearch host st.searchTerm r = true) ∧
        (st.selectedService = "all" ∨ r.service = st.selectedService) ∧
        (st.selectedLevel = "all" ∨ r.level = st.selectedLevel)) := by
  rw [filteredLogs_eq_filter, List.mem_filter]
  simp [Spec.keeps, and_assoc]

/-- C1: whatever the fetched list and the filter cells, the list that `filterLogs` stores
in `filteredLogs` is a sublist of `logs`: its records are records of `logs`, with no
record added or repeated and in the order they have in `logs`. -/
theorem filterLogs_sublist (host : Host) (st : State) :
    List.Sublist (filterLogs host st).filteredLogs st.logs := by
  rw [filteredLogs_eq_filter]
  exact List.filter_sublist _

/-- C2: the filter is the conjunction of its dimensions.  The stored view is `logs`
filtered by that conjunction, so a record is in `filteredLogs` exactly when it is in
`logs`, the term is empty or matches it, the service is "all" or its service, and the
level is "all" or its level. -/
theorem filterLogs_conjunctive (host : Host) (st : State) :
    (filterLogs host st).filteredLogs = st.logs.filter (Spec.keeps host st) ∧
    ∀ r, r ∈ (filterLogs host st).filteredLogs ↔
      (r ∈ st.logs ∧
        (st.searchTerm = "" ∨ matchesSearch host st.searchTerm r = true) ∧
        (st.selectedService = "all" ∨ r.service = st.selectedService) ∧
        (st.selectedLevel = "all" ∨ r.level = st.selectedLevel)) := by
  exact ⟨filteredLogs_eq_filter host st, mem_filteredLogs_iff host st⟩

/-- C3: with a non-empty term and both selections on "all", `filterLogs` keeps exactly
the records that match the term, and a record matches exactly when the lower-cased term
is a substring of its lower-cased message, service or user id; a record without user id
matches only through its message or its service. -/
theorem filterLogs_search (host : Host) (st : State) (ht : st.searchTerm ≠ "")
    (hs : st.selectedService = "all") (hl : st.selectedLevel = "all") :
    (filterLogs host st).filteredLogs = st.logs.filter (matchesSearch host st.searchTerm) ∧
    (∀ r, matchesSearch host st.searchTerm r = true ↔ Spec.termMatches host st.searchTerm r) ∧
    (∀ r, r.user_id = none →
      (r ∈ (filterLogs host st).filteredLogs ↔
        (r ∈ st.logs ∧
          ((host.toLowerCase st.searchTerm).data <:+: (host.toLowerCase r.message).data ∨
           (host.toLowerCase st.searchTerm).data <:+: (host.toLowerCase r.service).data)))) := by
  have hf : (filterLogs host st).filteredLogs =
      st.logs.filter (matchesSearch host st.searchTerm) := by
    simp [filterLogs, ht, hs, hl]
  refine ⟨hf, fun r => matchesSearch_iff host _ r, fun r hu => ?_⟩
  rw [hf, List.mem_filter, matchesSearch_iff]
  simp [Spec.termMatches, hu]

/-- C3, evaluated: the term "health" over the two records of the scenario keeps the
first record only. -/
theorem filterLogs_search_witness :
    healthScenario.searchTerm ≠ "" ∧ healthScenario.selectedService = "all" ∧
    healthScenario.selectedLevel = "all" ∧
    ((filterLogs asciiHost healthScenario).filteredLogs =
        healthScenario.logs.filter (matchesSearch asciiHost healthScenario.searchTerm) ∧
      (∀ r, matchesSearch asciiHost healthScenario.searchTerm r = true ↔
        Spec.termMatches asciiHost healthScenario.searchTerm r) ∧
      (∀ r, r.user_id = none →
        (r ∈ (filterLogs asciiHost healthScenario).filteredLogs ↔
          (r ∈ healthScenario.logs ∧
            ((asciiHost.toLowerCase healthScenario.searchTerm).data <:+:
                (asciiHost.toLowerCase r.message).data ∨
             (asciiHost.toLowerCase healthScenario.searchTerm).data <:+:
                (asciiHost.toLowerCase r.service).data))))) ∧
    (filterLogs asciiHost healthScenario).filteredLogs =
      [sampleRecord 1 "info" "backend" "health check ok"] :=
  ⟨by decide, by decide, by decide,
    filterLogs_search asciiHost healthScenario (by decide) (by decide) (by decide), by decide⟩

/-- C4: with the empty term, service "all" and level "all", `filterLogs` stores `logs`
itself, the same records in the same order. -/
theorem filterLogs_no_constraint (host : Host) (st : State) :
    (filterLogs host
      { st with searchTerm := "", selectedService := "all", selectedLevel := "all" }).filteredLogs
      = st.logs := by
  simp [filterLogs]

/-- C5: filtering is idempotent.  Running `filterLogs` with the same filter cells on the
view it produced gives that view again. -/
theorem filterLogs_idempotent (host : Host) (st : State) :
    (filterLogs host
      { filterLogs host st with logs := (filterLogs host st).filteredLogs }).filteredLogs
      = (filterLogs host st).filteredLogs := by
  have hk : Spec.keeps host
      { filterLogs host st with logs := (filterLogs host st).filteredLogs }
      = Spec.keeps host st := keeps_congr host st _ rfl rfl rfl
  rw [filteredLogs_eq_filter, hk]
  show List.filter (Spec.keeps host st) (filterLogs host st).filteredLogs = _
  rw [filteredLogs_eq_filter, List.filter_filter]
  simp

/-- C6, refuted as stated: under the selection "backend" the record whose service is
"Backend" equals the selection up to letter case and meets the search and level
constraints, yet `filterLogs` drops it. -/
theorem service_filter_case_counterexample :
    asciiHost.toLowerCase (sampleRecord 1 "info" "Backend" "started").service =
      asciiHost.toLowerCase serviceCaseScenario.selectedService ∧
    sampleRecord 1 "info" "Backend" "started" ∈ serviceCaseScenario.logs ∧
    serviceCaseScenario.searchTerm = "" ∧ serviceCaseScenario.selectedLevel = "all" ∧
    sampleRecord 1 "info" "Backend" "started" ∉
      (filterLogs asciiHost serviceCaseScenario).filteredLogs := by
  decide

/-- C6, amended: the service dimension compares with `===`, letter case included.  A
record of `logs` that meets the search and level constraints is retained exactly when
the selection is "all" or is identical to the record's service. -/
theorem service_filter_exact (host : Host) (st : State) (r : LogRecord) (hr : r ∈ st.logs)
    (hsearch : st.searchTerm = "" ∨ matchesSearch host st.searchTerm r = true)
    (hlevel : st.selectedLevel = "all" ∨ r.level = st.selectedLevel) :
    r ∈ (filterLogs host st).filteredLogs ↔
      (st.selectedService = "all" ∨ r.service = st.selectedService) := by
  rw [mem_filteredLogs_iff]
  tauto

/-- C6 amended, evaluated: under the selection "backend" the record whose service is
"backend" is retained. -/
theorem service_filter_exact_witness :
    sampleRecord 2 "info" "backend" "started" ∈ serviceCaseScenario.logs ∧
    (serviceCaseScenario.searchTerm = "" ∨
      matchesSearch asciiHost serviceCaseScenario.searchTerm
        (sampleRecord 2 "info" "backend" "started") = true) ∧
    (serviceCaseScenario.selectedLevel = "all" ∨
      (sampleRecord 2 "info" "backend" "started").level = serviceCaseScenario.selectedLevel) ∧
    (sampleRecord 2 "info" "backend" "started" ∈
        (filterLogs asciiHost serviceCaseScenario).filteredLogs ↔
      (serviceCaseScenario.selectedService = "all" ∨
        (sampleRecord 2 "info" "backend" "started").service =
          serviceCaseScenario.selectedService)) ∧
    sampleRecord 2 "info" "backend" "started" ∈
      (filterLogs asciiHost serviceCaseScenario).filteredLogs :=
  ⟨by decide, by decide, by decide,
    service_filter_exact asciiHost serviceCaseScenario _ (by decide) (by decide) (by decide),
    by decide⟩

/-! ## Fetching and the statistics -/

theorem statTotalLogs_instant (host : Host) (now now' : Int) (st : State) :
    statTotalLogs host now' st = statTotalLogs host now st := by
  unfold statTotalLogs displayLogs
  split <;> simp [mockLogs]

theorem statErreurs_instant (host : Host) (now now' : Int) (st : State) :
    statErreurs host now' st = statErreurs host now st := by
  unfold statErreurs displayLogs
  split
  · rfl
  · simp [mockLogs, List.filter]

theorem statAvertissements_instant (host : Host) (now now' : Int) (st : State) :
    statAvertissements host now' st = statAvertissements host now st := by
  unfold statAvertissements displayLogs
  split
  · rfl
  · simp [mockLogs, List.filter]

theorem statServicesActifs_instant (host : Host) (now now' : Int) (st : State) :
    statServicesActifs host now' st = statServicesActifs host now st := by
  unfold statServicesActifs displayLogs
  split
  · rfl
  · simp [mockLogs]

theorem settle_rejected_state (host : Host) (s : Session) (i : Nat) :
    (settle host s i GetLogsResult.rejected).state =
      { s.state with toasts := s.state.toasts ++ [fetchErrorToast], loading := false } := by
  simp [settle, commit, fetchLogsSettle, fetchDepsChanged, filterDepsChanged]

/-- C7: when the pending fetch is rejected, `logs` is left as it was, and so are the
filtered view and the four statistics shown from it, at whatever instants the page is
rendered before and after; the same holds of a whole call of `fetchLogs`, from its start
to the rejection. -/
theorem failed_fetch_keeps_view (host : Host) (s : Session) (i : Nat) :
    (settle host s i GetLogsResult.rejected).state.logs = s.state.logs ∧
    (settle host s i GetLogsResult.rejected).state.filteredLogs = s.state.filteredLogs ∧
    (settle host (callFetchLogs s) i GetLogsResult.rejected).state.logs = s.state.logs ∧
    (settle host (callFetchLogs s) i GetLogsResult.rejected).state.filteredLogs =
      s.state.filteredLogs ∧
    ∀ now now' : Int,
      statTotalLogs host now' (settle host s i GetLogsResult.rejected).state =
        statTotalLogs host now s.state ∧
      statErreurs host now' (settle host s i GetLogsResult.rejected).state =
        statErreurs host now s.state ∧
      statAvertissements host now' (settle host s i GetLogsResult.rejected).state =
        statAvertissements host now s.state ∧
      statServicesActifs host now' (settle host s i GetLogsResult.rejected).state =
        statServicesActifs host now s.state := by
  rw [settle_rejected_state, settle_rejected_state]
  refine ⟨rfl, rfl, rfl, rfl, fun now now' => ⟨?_, ?_, ?_, ?_⟩⟩
  · rw [statTotalLogs_instant host now now']; rfl
  · rw [statErreurs_instant host now now']; rfl
  · rw [statAvertissements_instant host now now']; rfl
  · rw [statServicesActifs_instant host now now']; rfl

/-- C8: when the pending fetch resolves with a body `data`, `logs` becomes `data.logs`
(the empty list when that field is absent), the filter cells are untouched, and the
filter effect stores as view the filter of the new list under the current term, service
and level; every record of the view is a record of the new list. -/
theorem successful_fetch_replaces (host : Host) (s : Session) (i : Nat) (data : LogsResponse) :
    (settle host s i (GetLogsResult.resolved (some data))).state.logs = data.logs.getD [] ∧
    (settle host s i (GetLogsResult.resolved (some data))).state.filteredLogs =
      (filterLogs host { s.state with logs := data.logs.getD [] }).filteredLogs ∧
    (settle host s i (GetLogsResult.resolved (some data))).state.filteredLogs =
      (data.logs.getD []).filter (Spec.keeps host s.state) ∧
    (settle host s i (GetLogsResult.resolved (some data))).state.searchTerm =
      s.state.searchTerm ∧
    (settle host s i (GetLogsResult.resolved (some data))).state.selectedService =
      s.state.selectedService ∧
    (settle host s i (GetLogsResult.resolved (some data))).state.selectedLevel =
      s.state.selectedLevel ∧
    List.Sublist (settle host s i (GetLogsResult.resolved (some data))).state.filteredLogs
      (data.logs.getD []) := by
  have hst : (settle host s i (GetLogsResult.resolved (some data))).state =
      filterLogs host
        { s.state with logs := data.logs.getD [], logsRef := s.state.logsRef + 1,
                       loading := false } := by
    simp [settle, commit, fetchLogsSettle, fetchDepsChanged, filterDepsChanged]
  have hf : (filterLogs host
        { s.state with logs := data.logs.getD [], logsRef := s.state.logsRef + 1,
                       loading := false }).filteredLogs =
      (data.logs.getD []).filter (Spec.keeps host s.state) := by
    rw [filteredLogs_eq_filter]
    exact congrArg (fun k => List.filter k (data.logs.getD []))
      (keeps_congr host s.state _ rfl rfl rfl)
  have hg : (filterLogs host { s.state with logs := data.logs.getD [] }).filteredLogs =
      (data.logs.getD []).filter (Spec.keeps host s.state) := by
    rw [filteredLogs_eq_filter]
    exact congrArg (fun k => List.filter k (data.logs.getD []))
      (keeps_congr host s.state _ rfl rfl rfl)
  rw [hst]
  refine ⟨rfl, ?_, hf, rfl, rfl, rfl, ?_⟩
  · rw [hf, hg]
  · rw [hf]
    exact List.filter_sublist _

/-- C9, refuted as stated: right after mounting, with no record fetched, the filtered
view is empty while "Total Logs" shows 3; and over a view of one "info" record the two
per-level counts the page computes add up to 0 while "Total Logs" shows 1. -/
theorem stat_total_counterexample :
    (mount asciiHost).state.filteredLogs.length = 0 ∧
    statTotalLogs asciiHost 0 (mount asciiHost).state = 3 ∧
    statTotalLogs asciiHost 0 (mount asciiHost).state ≠
      (mount asciiHost).state.filteredLogs.length ∧
    infoViewScenario.filteredLogs.length = 1 ∧
    statErreurs asciiHost 0 infoViewScenario + statAvertissements asciiHost 0 infoViewScenario
      ≠ statTotalLogs asciiHost 0 infoViewScenario := by
  decide

/-- C9, amended: when the filtered view is not empty, "Total Logs" is the number of its
records, and the two per-level counts the page computes ("Erreurs", "Avertissements")
together with the number of records of the view that have any other level add up to
that total. -/
theorem stat_total_of_nonempty_view (host : Host) (now : Int) (st : State)
    (h : st.filteredLogs ≠ []) :
    statTotalLogs host now st = st.filteredLogs.length ∧
    statErreurs host now st + statAvertissements host now st +
      (st.filteredLogs.filter
        (fun log => log.level != "error" && log.level != "warning")).length
      = statTotalLogs host now st := by
  have hpos : st.filteredLogs.length > 0 := List.length_pos.mpr h
  have hd : displayLogs host now st = st.filteredLogs := by
    simp [displayLogs, hpos]
  unfold statTotalLogs statErreurs statAvertissements
  rw [hd]
  refine ⟨rfl, ?_⟩
  generalize st.filteredLogs = l
  induction l with
  | nil => rfl
  | cons r l ih =>
    by_cases he : r.level = "error"
    · simp [List.filter_cons, he] at ih ⊢
      omega
    · by_cases hw : r.level = "warning"
      · simp [List.filter_cons, hw] at ih ⊢
        omega
      · simp [List.filter_cons, he, hw] at ih ⊢
        omega

/-- C9 amended, evaluated on the view of one "info" record. -/
theorem stat_total_of_nonempty_view_witness :
    infoViewScenario.filteredLogs ≠ [] ∧
    (statTotalLogs asciiHost 0 infoViewScenario = infoViewScenario.filteredLogs.length ∧
      statErreurs asciiHost 0 infoViewScenario + statAvertissements asciiHost 0 infoViewScenario +
        (infoViewScenario.filteredLogs.filter
          (fun log => log.level != "error" && log.level != "warning")).length
        = statTotalLogs asciiHost 0 infoViewScenario) ∧
    statTotalLogs asciiHost 0 infoViewScenario = 1 :=
  ⟨by decide, stat_total_of_nonempty_view asciiHost 0 infoViewScenario (by decide), by decide⟩

theorem stat_of_empty_view (host : Host) (now : Int) (st : State) (h : st.filteredLogs = []) :
    displayLogs host now st = mockLogs host now ∧
    statTotalLogs host now st = 3 ∧ statErreurs host now st = 1 ∧
    statAvertissements host now st = 1 ∧ statServicesActifs host now st = 3 := by
  have hd : displayLogs host now st = mockLogs host now := by
    simp [displayLogs, h]
  unfold statTotalLogs statErreurs statAvertissements statServicesActifs
  rw [hd]
  refine ⟨rfl, rfl, ?_, ?_, ?_⟩
  · simp [mockLogs, List.filter]
  · simp [mockLogs, List.filter]
  · simp [mockLogs]

theorem displayLogs_of_nonempty (host : Host) (now : Int) (st : State)
    (h : st.filteredLogs ≠ []) : displayLogs host now st = st.filteredLogs := by
  have hpos : st.filteredLogs.length > 0 := List.length_pos.mpr h
  simp [displayLogs, hpos]

/-- C10, refuted as stated: the first fetch returned no record, the filtered view is
empty, and the statistics are not zero: they read total 3, 1 error, 1 warning and 3
services. -/
theorem stat_no_records_counterexample :
    emptyFetchScenario.state.logs = [] ∧ emptyFetchScenario.state.filteredLogs = [] ∧
    ¬ (statTotalLogs asciiHost 0 emptyFetchScenario.state = 0 ∧
       statErreurs asciiHost 0 emptyFetchScenario.state = 0 ∧
       statAvertissements asciiHost 0 emptyFetchScenario.state = 0 ∧
       statServicesActifs asciiHost 0 emptyFetchScenario.state = 0) ∧
    statTotalLogs asciiHost 0 emptyFetchScenario.state = 3 ∧
    statErreurs asciiHost 0 emptyFetchScenario.state = 1 ∧
    statAvertissements asciiHost 0 emptyFetchScenario.state = 1 ∧
    statServicesActifs asciiHost 0 emptyFetchScenario.state = 3 := by
  decide

/-- C10, amended: when no record is stored, the filtered view is empty and the statistics
are computed, without error, from the three sample records shown in its place: total 3,
1 error, 1 warning, 3 distinct services. -/
theorem stat_of_no_records (host : Host) (now : Int) (st : State) (h : st.logs = []) :
    (filterLogs host st).filteredLogs = [] ∧
    displayLogs host now (filterLogs host st) = mockLogs host now ∧
    statTotalLogs host now (filterLogs host st) = 3 ∧
    statErreurs host now (filterLogs host st) = 1 ∧
    statAvertissements host now (filterLogs host st) = 1 ∧
    statServicesActifs host now (filterLogs host st) = 3 := by
  have he : (filterLogs host st).filteredLogs = [] := by
    rw [filteredLogs_eq_filter, h]
    rfl
  exact ⟨he, stat_of_empty_view host now _ he⟩

/-- C10 amended, evaluated on the state reached when the first fetch returns no record. -/
theorem stat_of_no_records_witness :
    emptyFetchScenario.state.logs = [] ∧
    ((filterLogs asciiHost emptyFetchScenario.state).filteredLogs = [] ∧
      displayLogs asciiHost 0 (filterLogs asciiHost emptyFetchScenario.state)
        = mockLogs asciiHost 0 ∧
      statTotalLogs asciiHost 0 (filterLogs asciiHost emptyFetchScenario.state) = 3 ∧
      statErreurs asciiHost 0 (filterLogs asciiHost emptyFetchScenario.state) = 1 ∧
      statAvertissements asciiHost 0 (filterLogs asciiHost emptyFetchScenario.state) = 1 ∧
      statServicesActifs asciiHost 0 (filterLogs asciiHost emptyFetchScenario.state) = 3) :=
  ⟨by decide, stat_of_no_records asciiHost 0 emptyFetchScenario.state (by decide)⟩

/-- C11: over a non-empty filtered view, "Services Actifs" is the number of distinct
service values occurring in the view; it is at least 1 and at most "Total Logs". -/
theorem stat_services_of_nonempty_view (host : Host) (now : Int) (st : State)
    (h : st.filteredLogs ≠ []) :
    statServicesActifs host now st =
      (st.filteredLogs.map (fun log => log.service)).toFinset.card ∧
    1 ≤ statServicesActifs host now st ∧
    statServicesActifs host now st ≤ statTotalLogs host now st := by
  unfold statServicesActifs statTotalLogs
  rw [displayLogs_of_nonempty host now st h]
  refine ⟨(List.card_toFinset _).symm, ?_, ?_⟩
  · have hne : (st.filteredLogs.map (fun log => log.service)).dedup ≠ [] := by
      intro hd
      rw [List.dedup_eq_nil] at hd
      exact h (List.map_eq_nil_iff.mp hd)
    exact List.length_pos.mpr hne
  · calc ((st.filteredLogs.map (fun log => log.service)).dedup).length
        ≤ (st.filteredLogs.map (fun log => log.service)).length :=
          (List.dedup_sublist _).length_le
      _ = st.filteredLogs.length := List.length_map _ _

/-- C11, evaluated: four records over the services backend, api, api, nginx give 3. -/
theorem stat_services_of_nonempty_view_witness :
    mixedViewScenario.filteredLogs ≠ [] ∧
    (statServicesActifs asciiHost 0 mixedViewScenario =
        (mixedViewScenario.filteredLogs.map (fun log => log.service)).toFinset.card ∧
      1 ≤ statServicesActifs asciiHost 0 mixedViewScenario ∧
      statServicesActifs asciiHost 0 mixedViewScenario ≤
        statTotalLogs asciiHost 0 mixedViewScenario) ∧
    statServicesActifs asciiHost 0 mixedViewScenario = 3 :=
  ⟨by decide, stat_services_of_nonempty_view asciiHost 0 mixedViewScenario (by decide),
    by decide⟩

theorem level_counts_le (l : List LogRecord) :
    (l.filter (fun log => log.level == "error")).length +
      (l.filter (fun log => log.level == "warning")).length ≤ l.length := by
  induction l with
  | nil => simp
  | cons r l ih =>
    by_cases he : r.level = "error"
    · simp [List.filter_cons, he] at ih ⊢
      omega
    · by_cases hw : r.level = "warning"
      · simp [List.filter_cons, hw] at ih ⊢
        omega
      · simp [List.filter_cons, he, hw] at ih ⊢
        omega

/-- C12: over a non-empty filtered view, "Erreurs" is the number of its records whose
level is "error" and "Avertissements" the number whose level is "warning"; no record is
counted in both, and the two counts together are at most "Total Logs". -/
theorem stat_levels_of_nonempty_view (host : Host) (now : Int) (st : State)
    (h : st.filteredLogs ≠ []) :
    statErreurs host now st = st.filteredLogs.countP (fun r => decide (r.level = "error")) ∧
    statAvertissements host now st =
      st.filteredLogs.countP (fun r => decide (r.level = "warning")) ∧
    List.Disjoint (st.filteredLogs.filter (fun log => log.level == "error"))
      (st.filteredLogs.filter (fun log => log.level == "warning")) ∧
    statErreurs host now st + statAvertissements host now st ≤ statTotalLogs host now st := by
  unfold statErreurs statAvertissements statTotalLogs
  rw [displayLogs_of_nonempty host now st h]
  refine ⟨?_, ?_, ?_, level_counts_le _⟩
  · rw [List.countP_eq_length_filter]
    congr 2
  · rw [List.countP_eq_length_filter]
    congr 2
  · intro r h1 h2
    have e1 := (List.mem_filter.mp h1).2
    have e2 := (List.mem_filter.mp h2).2
    simp at e1 e2
    rw [e1] at e2
    exact absurd e2 (by decide)

/-- C12, evaluated: the view of four records has 2 errors and 1 warning. -/
theorem stat_levels_of_nonempty_view_witness :
    mixedViewScenario.filteredLogs ≠ [] ∧
    (statErreurs asciiHost 0 mixedViewScenario =
        mixedViewScenario.filteredLogs.countP (fun r => decide (r.level = "error")) ∧
      statAvertissements asciiHost 0 mixedViewScenario =
        mixedViewScenario.filteredLogs.countP (fun r => decide (r.level = "warning")) ∧
      List.Disjoint (mixedViewScenario.filteredLogs.filter (fun log => log.level == "error"))
        (mixedViewScenario.filteredLogs.filter (fun log => log.level == "warning")) ∧
      statErreurs asciiHost 0 mixedViewScenario + statAvertissements asciiHost 0 mixedViewScenario
        ≤ statTotalLogs asciiHost 0 mixedViewScenario) ∧
    statErreurs asciiHost 0 mixedViewScenario = 2 ∧
    statAvertissements asciiHost 0 mixedViewScenario = 1 :=
  ⟨by decide, stat_levels_of_nonempty_view asciiHost 0 mixedViewScenario (by decide),
    by decide, by decide⟩

/-- C13, the code at the failing input: two records are stored and the term "zzz"
matches neither, so the filtered view is empty; `displayLogs` is then the three sample
records, although the fetched record set is not empty, and the statistics are those of
the sample records. -/
theorem displayLogs_mock_despite_records :
    noMatchScenario.logs.length = 2 ∧ noMatchScenario.filteredLogs = [] ∧
    displayLogs asciiHost 0 noMatchScenario = mockLogs asciiHost 0 ∧
    displayLogs asciiHost 0 noMatchScenario ≠ noMatchScenario.filteredLogs ∧
    statTotalLogs asciiHost 0 noMatchScenario = 3 := by
  decide

/-! ## Effects, fetches and the timer -/

theorem fetchEffectCleanup_fields (s : Session) :
    (fetchEffectCleanup s).state = s.state ∧ (fetchEffectCleanup s).requests = s.requests ∧
    (fetchEffectCleanup s).inFlight = s.inFlight ∧ (fetchEffectCleanup s).clock = s.clock ∧
    (fetchEffectCleanup s).nextTimerId = s.nextTimerId := by
  unfold fetchEffectCleanup
  cases s.interval <;> simp [clearInterval]

theorem fetchEffect_fields (s : Session) :
    (fetchEffect s).state = fetchLogsStart s.state ∧
    (fetchEffect s).requests = s.requests ++ [(s.clock, fetchParams s.state)] ∧
    (fetchEffect s).inFlight = s.inFlight ++ [fetchParams s.state] ∧
    (fetchEffect s).clock = s.clock := by
  unfold fetchEffect
  cases s.state.autoRefresh <;> simp [callFetchLogs, fetchLogsWith]

/-- A commit in which the dependencies of the fetch effect are unchanged sends nothing
and leaves the timers alone. -/
theorem commit_fetchDeps_same (host : Host) (prev : State) (s : Session)
    (h : fetchDepsChanged prev s.state = false) :
    (commit host prev s).requests = s.requests ∧ (commit host prev s).inFlight = s.inFlight ∧
    (commit host prev s).timers = s.timers ∧ (commit host prev s).interval = s.interval ∧
    (commit host prev s).nextTimerId = s.nextTimerId ∧ (commit host prev s).clock = s.clock ∧
    (commit host prev s).state =
      if filterDepsChanged prev s.state then filterLogs host s.state else s.state := by
  unfold commit
  simp only [h, Bool.false_eq_true, if_false]
  split <;> simp

/-- A commit in which the dependencies of the fetch effect changed calls `fetchLogs` once,
with the query of the new render. -/
theorem commit_fetchDeps_changed (host : Host) (prev : State) (s : Session)
    (h : fetchDepsChanged prev s.state = true) :
    (commit host prev s).requests = s.requests ++ [(s.clock, fetchParams s.state)] ∧
    (commit host prev s).inFlight = s.inFlight ++ [fetchParams s.state] ∧
    (commit host prev s).clock = s.clock := by
  have hc := fetchEffectCleanup_fields s
  have he := fetchEffect_fields (fetchEffectCleanup s)
  unfold commit
  simp only [h, if_true]
  split <;> simp [he.2.1, he.2.2.1, he.2.2.2, hc.1, hc.2.1, hc.2.2.1, hc.2.2.2.1]

/-- C14: a change of the search term, of the selected service or of the selected level
sends no request and stores as view the filter of the unchanged `logs` under the new
cells; a change of the time range calls `fetchLogs` once, with the new range. -/
theorem filter_change_fetches_only_for_range (host : Host) (s : Session)
    (t svc lvl range : String) (ht : t ≠ s.state.searchTerm)
    (hsvc : svc ≠ s.state.selectedService) (hlvl : lvl ≠ s.state.selectedLevel)
    (hrange : range ≠ s.state.selectedTimeRange) :
    ((step host s (Event.setSearchTerm t)).requests = s.requests ∧
      (step host s (Event.setSearchTerm t)).inFlight = s.inFlight ∧
      (step host s (Event.setSearchTerm t)).state.logs = s.state.logs ∧
      (step host s (Event.setSearchTerm t)).state.filteredLogs =
        (filterLogs host { s.state with searchTerm := t }).filteredLogs) ∧
    ((step host s (Event.setSelectedService svc)).requests = s.requests ∧
      (step host s (Event.setSelectedService svc)).inFlight = s.inFlight ∧
      (step host s (Event.setSelectedService svc)).state.logs = s.state.logs ∧
      (step host s (Event.setSelectedService svc)).state.filteredLogs =
        (filterLogs host { s.state with selectedService := svc }).filteredLogs) ∧
    ((step host s (Event.setSelectedLevel lvl)).requests = s.requests ∧
      (step host s (Event.setSelectedLevel lvl)).inFlight = s.inFlight ∧
      (step host s (Event.setSelectedLevel lvl)).state.logs = s.state.logs ∧
      (step host s (Event.setSelectedLevel lvl)).state.filteredLogs =
        (filterLogs host { s.state with selectedLevel := lvl }).filteredLogs) ∧
    ((step host s (Event.setSelectedTimeRange range)).requests =
        s.requests ++ [(s.clock, fetchParams { s.state with selectedTimeRange := range })] ∧
      (step host s (Event.setSelectedTimeRange range)).inFlight =
        s.inFlight ++ [fetchParams { s.state with selectedTimeRange := range }] ∧
      (fetchParams { s.state with selectedTimeRange := range }).timeRange = range) := by
  refine ⟨?_, ?_, ?_, ?_⟩
  · have h := commit_fetchDeps_same host s.state
      { s with state := { s.state with searchTerm := t } } (by simp [fetchDepsChanged])
    have hf : filterDepsChanged s.state { s.state with searchTerm := t } = true := by
      simp [filterDepsChanged, Ne.symm ht]
    simp only [hf, if_true] at h
    refine ⟨h.1, h.2.1, ?_, ?_⟩
    · show (commit host s.state _).state.logs = _
      rw [h.2.2.2.2.2.2]
      rfl
    · show (commit host s.state _).state.filteredLogs = _
      rw [h.2.2.2.2.2.2]
  · have h := commit_fetchDeps_same host s.state
      { s with state := { s.state with selectedService := svc } } (by simp [fetchDepsChanged])
    have hf : filterDepsChanged s.state { s.state with selectedService := svc } = true := by
      simp [filterDepsChanged, Ne.symm hsvc]
    simp only [hf, if_true] at h
    refine ⟨h.1, h.2.1, ?_, ?_⟩
    · show (commit host s.state _).state.logs = _
      rw [h.2.2.2.2.2.2]
      rfl
    · show (commit host s.state _).state.filteredLogs = _
      rw [h.2.2.2.2.2.2]
  · have h := commit_fetchDeps_same host s.state
      { s with state := { s.state with selectedLevel := lvl } } (by simp [fetchDepsChanged])
    have hf : filterDepsChanged s.state { s.state with selectedLevel := lvl } = true := by
      simp [filterDepsChanged, Ne.symm hlvl]
    simp only [hf, if_true] at h
    refine ⟨h.1, h.2.1, ?_, ?_⟩
    · show (commit host s.state _).state.logs = _
      rw [h.2.2.2.2.2.2]
      rfl
    · show (commit host s.state _).state.filteredLogs = _
      rw [h.2.2.2.2.2.2]
  · have h := commit_fetchDeps_changed host s.state
      { s with state := { s.state with selectedTimeRange := range } }
      (by simp [fetchDepsChanged, Ne.symm hrange])
    exact ⟨h.1, h.2.1, rfl⟩

/-- C14, evaluated on the session that holds four records: the term "health" sends
nothing and leaves the one matching record in the view; the range "7d" sends one query
for "7d". -/
theorem filter_change_fetches_only_for_range_witness :
    "health" ≠ loadedScenario.state.searchTerm ∧
    "backend" ≠ loadedScenario.state.selectedService ∧
    "error" ≠ loadedScenario.state.selectedLevel ∧
    "7d" ≠ loadedScenario.state.selectedTimeRange ∧
    (step asciiHost loadedScenario (Event.setSearchTerm "health")).requests =
      loadedScenario.requests ∧
    (step asciiHost loadedScenario (Event.setSearchTerm "health")).state.filteredLogs =
      [sampleRecord 1 "error" "backend" "health check failed"] ∧
    (step asciiHost loadedScenario (Event.setSelectedTimeRange "7d")).requests =
      loadedScenario.requests ++
        [(0, { timeRange := "7d", service := none, level := none, exportFlag := false })] :=
  ⟨by decide, by decide, by decide, by decide,
    (filter_change_fetches_only_for_range asciiHost loadedScenario "health" "backend" "error"
      "7d" (by decide) (by decide) (by decide) (by decide)).1.1,
    by decide,
    (filter_change_fetches_only_for_range asciiHost loadedScenario "health" "backend" "error"
      "7d" (by decide) (by decide) (by decide) (by decide)).2.2.2.1⟩

/-- C15, refuted as stated: right after mounting one query has been sent; switching
live mode on sends a second one at the same instant, before any period has passed, and
switching it off again sends a third. -/
theorem toggle_fetch_counterexample :
    (run asciiHost []).requests.length = 1 ∧
    (run asciiHost [Event.toggleAutoRefresh]).state.autoRefresh = true ∧
    (run asciiHost [Event.toggleAutoRefresh]).clock = 0 ∧
    (run asciiHost [Event.toggleAutoRefresh]).requests.length = 2 ∧
    (run asciiHost [Event.toggleAutoRefresh, Event.toggleAutoRefresh]).state.autoRefresh
      = false ∧
    (run asciiHost [Event.toggleAutoRefresh, Event.toggleAutoRefresh]).clock = 0 ∧
    (run asciiHost [Event.toggleAutoRefresh, Event.toggleAutoRefresh]).requests.length = 3 := by
  decide

/-- C15, amended: toggling the live flag, on or off, flips `autoRefresh`, and the fetch
effect, which depends on it, runs again and calls `fetchLogs` once, with the current
query. -/
theorem toggle_starts_one_fetch (host : Host) (s : Session) :
    (step host s Event.toggleAutoRefresh).state.autoRefresh = !s.state.autoRefresh ∧
    (step host s Event.toggleAutoRefresh).requests =
      s.requests ++ [(s.clock, fetchParams s.state)] ∧
    (step host s Event.toggleAutoRefresh).inFlight = s.inFlight ++ [fetchParams s.state] := by
  have hch : fetchDepsChanged s.state { s.state with autoRefresh := !s.state.autoRefresh }
      = true := by
    cases h : s.state.autoRefresh <;> simp [fetchDepsChanged, h]
  have h := commit_fetchDeps_changed host s.state
    { s with state := { s.state with autoRefresh := !s.state.autoRefresh } } hch
  refine ⟨?_, h.1, h.2.1⟩
  show (commit host s.state _).state.autoRefresh = _
  unfold commit
  simp only [hch, if_true]
  have hs := (fetchEffect_fields (fetchEffectCleanup
    { s with state := { s.state with autoRefresh := !s.state.autoRefresh } })).1
  rw [(fetchEffectCleanup_fields _).1] at hs
  split <;> simp [hs, filterLogs, fetchLogsStart]

theorem callFetchLogs_commit (host : Host) (s : Session) :
    commit host s.state (callFetchLogs s) = callFetchLogs s := by
  simp [commit, callFetchLogs, fetchLogsWith, fetchLogsStart, fetchDepsChanged,
    filterDepsChanged]

theorem run_snoc (host : Host) (events : List Event) (e : Event) :
    run host (events ++ [e]) = step host (run host events) e := by
  simp [run, List.foldl_append]

/-- C18, refuted as stated: right after mounting the first fetch is pending and
`loading` is true; a click on "Actualiser" sends a second query all the same, and two
fetches are in flight. -/
theorem fetch_while_loading_counterexample :
    (run asciiHost []).state.loading = true ∧ (run asciiHost []).inFlight.length = 1 ∧
    (run asciiHost [Event.actualiser]).requests.length = 2 ∧
    (run asciiHost [Event.actualiser]).inFlight.length = 2 ∧
    run asciiHost [Event.actualiser] ≠ run asciiHost [] := by
  decide

/-- C18, amended: `fetchLogs` has no guard on `loading`.  Every call, also one made while
a fetch is pending, sends its query and adds one pending fetch, so after `n` clicks on
"Actualiser" that follow the mount `n + 1` fetches are in flight. -/
theorem fetch_always_sends (host : Host) (s : Session) (n : Nat) :
    (step host s Event.actualiser).requests = s.requests ++ [(s.clock, fetchParams s.state)] ∧
    (step host s Event.actualiser).inFlight = s.inFlight ++ [fetchParams s.state] ∧
    (step host s Event.actualiser).state.loading = true ∧
    (run host (List.replicate n Event.actualiser)).inFlight.length = n + 1 := by
  have hstep : ∀ s' : Session, step host s' Event.actualiser = callFetchLogs s' :=
    fun s' => callFetchLogs_commit host s'
  refine ⟨?_, ?_, ?_, ?_⟩
  · rw [hstep]; rfl
  · rw [hstep]; rfl
  · rw [hstep]; rfl
  · induction n with
    | zero => simp [run, mount, fetchEffect, callFetchLogs, fetchLogsWith, initialState]
    | succ n ih =>
      rw [List.replicate_succ', run_snoc, hstep]
      simp [callFetchLogs, fetchLogsWith, ih]

/-- C20: `exportLogs` queries the source with the current time range, the selected
service and level (each left out when "all") and the export flag, which is the query of
`fetchLogs` with the flag added; the query does not read `searchTerm`, so sessions that
differ in the search term only send the same export request. -/
theorem export_query (s : Session) (t : String) :
    (callExportLogs s).requests = s.requests ++ [(s.clock, exportParams s.state)] ∧
    (exportParams s.state).timeRange = s.state.selectedTimeRange ∧
    (exportParams s.state).service =
      (if s.state.selectedService = "all" then none else some s.state.selectedService) ∧
    (exportParams s.state).level =
      (if s.state.selectedLevel = "all" then none else some s.state.selectedLevel) ∧
    (exportParams s.state).exportFlag = true ∧
    exportParams s.state = { fetchParams s.state with exportFlag := true } ∧
    exportParams { s.state with searchTerm := t } = exportParams s.state ∧
    (callExportLogs { s with state := { s.state with searchTerm := t } }).requests =
      (callExportLogs s).requests := by
  refine ⟨rfl, rfl, ?_, ?_, rfl, rfl, rfl, rfl⟩
  · by_cases h : s.state.selectedService = "all" <;> simp [exportParams, h]
  · by_cases h : s.state.selectedLevel = "all" <;> simp [exportParams, h]

theorem timerShape_cleanup (b : Bool) (s : Session) (h : TimerShape b s) :
    (fetchEffectCleanup s).timers = [] := by
  unfold fetchEffectCleanup
  rcases h with ⟨_, ht, hi⟩ | ⟨_, t, ht, hi⟩
  · simp [hi, ht]
  · simp [hi, ht, clearInterval]

theorem timerInv_fetchEffect (s : Session) (h : s.timers = []) : TimerInv (fetchEffect s) := by
  unfold TimerInv TimerShape fetchEffect
  cases ha : s.state.autoRefresh <;>
    simp [ha, h, callFetchLogs, fetchLogsWith, fetchLogsStart]

theorem timerInv_commit (host : Host) (prev : State) (s : Session)
    (h : TimerShape prev.autoRefresh s) : TimerInv (commit host prev s) := by
  have key : TimerInv
      (if fetchDepsChanged prev s.state then fetchEffect (fetchEffectCleanup s) else s) := by
    by_cases hc : fetchDepsChanged prev s.state = true
    · rw [if_pos hc]
      exact timerInv_fetchEffect _ (timerShape_cleanup _ s h)
    · rw [if_neg hc]
      have ha : prev.autoRefresh = s.state.autoRefresh := by
        simp [fetchDepsChanged] at hc
        exact hc.1
      unfold TimerInv
      rw [← ha]
      exact h
  simp only [commit]
  generalize (if fetchDepsChanged prev s.state = true then fetchEffect (fetchEffectCleanup s)
    else s) = x at key ⊢
  by_cases hf : filterDepsChanged prev x.state = true
  · rw [if_pos hf]
    exact key
  · rw [if_neg hf]
    exact key

theorem timerInv_timerFires (host : Host) (s : Session) (t : Timer) (time : Nat)
    (h : TimerInv s) : TimerInv (timerFires host s t time) :=
  timerInv_commit host s.state _ h

theorem timerInv_foldl (host : Host) (due : List (Nat × Timer)) (s : Session)
    (h : TimerInv s) :
    TimerInv (due.foldl (fun acc f => timerFires host acc f.2 f.1) s) := by
  induction due generalizing s with
  | nil => exact h
  | cons f due ih => exact ih _ (timerInv_timerFires host s f.2 f.1 h)

theorem timerInv_step (host : Host) (s : Session) (e : Event) (h : TimerInv s) :
    TimerInv (step host s e) := by
  cases e with
  | setSearchTerm v => exact timerInv_commit host s.state _ h
  | setSelectedService v => exact timerInv_commit host s.state _ h
  | setSelectedLevel v => exact timerInv_commit host s.state _ h
  | setSelectedTimeRange v => exact timerInv_commit host s.state _ h
  | toggleAutoRefresh => exact timerInv_commit host s.state _ h
  | actualiser => exact timerInv_commit host s.state _ h
  | settle i result =>
    show TimerInv (if i < s.inFlight.length then settle host s i result else s)
    split
    · exact timerInv_commit host s.state _ h
    · exact h
  | exporter => exact h
  | settleExport i result =>
    show TimerInv (if i < s.exportsInFlight.length then exportLogsSettle host s i result else s)
    split
    · unfold exportLogsSettle
      split <;> exact h
    · exact h
  | elapse d =>
    have hf := timerInv_foldl host
      ((s.timers.flatMap (fun t => t.firings s.clock (s.clock + d))).insertionSort
        (fun a b => a.1 ≤ b.1)) s h
    exact hf
  | toggleRow logId => exact timerInv_commit host s.state _ h

theorem timerInv_run (host : Host) (events : List Event) : TimerInv (run host events) := by
  induction events using List.reverseRecOn with
  | nil =>
    exact Or.inl ⟨rfl, rfl, rfl⟩
  | append_singleton events e ih =>
    rw [run_snoc]
    exact timerInv_step host _ e ih

/-- C17: in every session reached from the mount by any sequence of events, at most one
refresh timer is armed; one is armed exactly when `autoRefresh` is on; the armed timer
is the one whose id the latest run of the fetch effect holds, so the cleanup of that
run, which React runs before the next run and at unmount, leaves no timer armed. -/
theorem timer_invariant (host : Host) (events : List Event) :
    (run host events).timers.length ≤ 1 ∧
    ((run host events).timers ≠ [] ↔ (run host events).state.autoRefresh = true) ∧
    (∀ t ∈ (run host events).timers, (run host events).interval = some t.id) ∧
    (fetchEffectCleanup (run host events)).timers = [] ∧
    (unmount (run host events)).timers = [] ∧
    (unmount (run host (events ++ [Event.toggleAutoRefresh]))).timers = [] := by
  have h := timerInv_run host events
  have hc := timerShape_cleanup _ _ h
  have hc2 := timerShape_cleanup _ _ (timerInv_run host (events ++ [Event.toggleAutoRefresh]))
  refine ⟨?_, ?_, ?_, hc, hc, hc2⟩
  · rcases h with ⟨_, ht, _⟩ | ⟨_, t, ht, _⟩ <;> simp [ht]
  · rcases h with ⟨ha, ht, _⟩ | ⟨ha, t, ht, _⟩ <;> simp [ht, ha]
  · rcases h with ⟨_, ht, _⟩ | ⟨_, t, ht, hi⟩
    · simp [ht]
    · intro t' ht'
      rw [ht] at ht'
      rw [List.mem_singleton.mp ht', hi]

/-! ## Independence of the host built-ins -/

theorem commit_skeleton (host host' : Host) (prev : State) (s : Session) :
    (commit host prev s).skeleton = (commit host' prev.skel s.skeleton).skeleton := by
  have h1 : fetchDepsChanged prev.skel s.skeleton.state = fetchDepsChanged prev s.state := rfl
  simp only [commit, h1]
  have h2 : (fetchEffect (fetchEffectCleanup s)).skeleton =
      (fetchEffect (fetchEffectCleanup s.skeleton)).skeleton := by
    unfold fetchEffectCleanup fetchEffect
    cases hi : s.interval <;> cases ha : s.state.autoRefresh <;>
      simp [Session.skeleton, State.skel, hi, ha, clearInterval, callFetchLogs, fetchLogsWith,
        fetchLogsStart, fetchParams]
  have h3 : ∀ (h0 : Host) (c : Bool) (x : Session),
      (if c = true then { x with state := filterLogs h0 x.state } else x).skeleton
        = x.skeleton := by
    intro h0 c x
    split <;> rfl
  by_cases hc : fetchDepsChanged prev s.state = true
  · simp only [hc, if_true]
    rw [h3, h3, h2]
  · simp only [hc, if_false]
    rw [h3, h3]
    rfl

theorem skeleton_idem (s : Session) : s.skeleton.skeleton = s.skeleton := rfl

theorem timerFires_skeleton (host host' : Host) (s : Session) (t : Timer) (time : Nat) :
    (timerFires host s t time).skeleton = (timerFires host' s.skeleton t time).skeleton := by
  unfold timerFires
  rw [commit_skeleton host host']
  rfl

theorem foldl_timerFires_skeleton (host host' : Host) (due : List (Nat × Timer))
    (s s' : Session) (h : s.skeleton = s'.skeleton) :
    (due.foldl (fun acc f => timerFires host acc f.2 f.1) s).skeleton =
      (due.foldl (fun acc f => timerFires host' acc f.2 f.1) s').skeleton := by
  induction due generalizing s s' with
  | nil => exact h
  | cons f due ih =>
    apply ih
    rw [timerFires_skeleton host host, timerFires_skeleton host' host, h]

theorem commit_skeleton_congr (host host' : Host) (prev prev' : State) (s s' : Session)
    (hp : prev.skel = prev'.skel) (hs : s.skeleton = s'.skeleton) :
    (commit host prev s).skeleton = (commit host' prev' s').skeleton := by
  rw [commit_skeleton host host, commit_skeleton host' host, hp, hs]

theorem step_skeleton (host host' : Host) (s s' : Session) (e : Event)
    (h : s.skeleton = s'.skeleton) :
    (step host s e).skeleton = (step host' s' e).skeleton := by
  have hst : s.state.skel = s'.state.skel := congrArg Session.state h
  cases e with
  | setSearchTerm v =>
    have h2 := congrArg (fun x : Session =>
      ({ x with state := { x.state with searchTerm := v } } : Session).skeleton) h
    exact commit_skeleton_congr host host' s.state s'.state _ _ hst h2
  | setSelectedService v =>
    have h2 := congrArg (fun x : Session =>
      ({ x with state := { x.state with selectedService := v } } : Session).skeleton) h
    exact commit_skeleton_congr host host' s.state s'.state _ _ hst h2
  | setSelectedLevel v =>
    have h2 := congrArg (fun x : Session =>
      ({ x with state := { x.state with selectedLevel := v } } : Session).skeleton) h
    exact commit_skeleton_congr host host' s.state s'.state _ _ hst h2
  | setSelectedTimeRange v =>
    have h2 := congrArg (fun x : Session =>
      ({ x with state := { x.state with selectedTimeRange := v } } : Session).skeleton) h
    exact commit_skeleton_congr host host' s.state s'.state _ _ hst h2
  | toggleAutoRefresh =>
    have h2 := congrArg (fun x : Session =>
      ({ x with state := { x.state with autoRefresh := !x.state.autoRefresh } }
        : Session).skeleton) h
    exact commit_skeleton_congr host host' s.state s'.state _ _ hst h2
  | actualiser =>
    have h2 := congrArg (fun x : Session => (callFetchLogs x).skeleton) h
    exact commit_skeleton_congr host host' s.state s'.state _ _ hst h2
  | settle i result =>
    have hl : s.inFlight = s'.inFlight := by
      have h0 := congrArg Session.inFlight h
      exact h0
    show (if i < s.inFlight.length then settle host s i result else s).skeleton =
      (if i < s'.inFlight.length then settle host' s' i result else s').skeleton
    rw [hl]
    split
    · rcases result with _ | (_ | data)
      · have h2 := congrArg (fun x : Session =>
          ({ x with state := fetchLogsSettle x.state GetLogsResult.rejected,
                    inFlight := x.inFlight.eraseIdx i } : Session).skeleton) h
        exact commit_skeleton_congr host host' s.state s'.state _ _ hst h2
      · have h2 := congrArg (fun x : Session =>
          ({ x with state := fetchLogsSettle x.state (GetLogsResult.resolved none),
                    inFlight := x.inFlight.eraseIdx i } : Session).skeleton) h
        exact commit_skeleton_congr host host' s.state s'.state _ _ hst h2
      · have h2 := congrArg (fun x : Session =>
          ({ x with state := fetchLogsSettle x.state (GetLogsResult.resolved (some data)),
                    inFlight := x.inFlight.eraseIdx i } : Session).skeleton) h
        exact commit_skeleton_congr host host' s.state s'.state _ _ hst h2
    · exact h
  | exporter =>
    have h2 := congrArg (fun x : Session => (callExportLogs x).skeleton) h
    exact h2
  | settleExport i result =>
    have hl : s.exportsInFlight = s'.exportsInFlight := by
      have h0 := congrArg Session.exportsInFlight h
      exact h0
    show (if i < s.exportsInFlight.length then exportLogsSettle host s i result else s).skeleton
      = (if i < s'.exportsInFlight.length then exportLogsSettle host' s' i result
          else s').skeleton
    rw [hl]
    split
    · rcases result with _ | (_ | data)
      · have h2 := congrArg (fun x : Session =>
          (exportLogsSettle host x i GetLogsResult.rejected).skeleton) h
        exact h2
      · have h2 := congrArg (fun x : Session =>
          (exportLogsSettle host x i (GetLogsResult.resolved none)).skeleton) h
        exact h2
      · have h2 := congrArg (fun x : Session =>
          (exportLogsSettle host x i (GetLogsResult.resolved (some data))).skeleton) h
        exact h2
    · exact h
  | elapse d =>
    have ht : s.timers = s'.timers := by
      have h0 := congrArg Session.timers h
      exact h0
    have hc : s.clock = s'.clock := by
      have h0 := congrArg Session.clock h
      exact h0
    have hf := foldl_timerFires_skeleton host host'
      ((s.timers.flatMap (fun t => t.firings s.clock (s.clock + d))).insertionSort
        (fun a b => a.1 ≤ b.1)) s s' h
    show (elapse host s d).skeleton = (elapse host' s' d).skeleton
    unfold elapse
    simp only []
    rw [← ht, ← hc]
    have h2 := congrArg (fun x : Session => ({ x with clock := s.clock + d } : Session)) hf
    exact h2
  | toggleRow logId =>
    have h2 := congrArg (fun x : Session =>
      ({ x with state := toggleRowExpansion x.state logId } : Session).skeleton) h
    exact commit_skeleton_congr host host' s.state s'.state _ _ hst h2

theorem run_skeleton (host host' : Host) (events : List Event) :
    (run host events).skeleton = (run host' events).skeleton := by
  induction events using List.reverseRecOn with
  | nil => rfl
  | append_singleton events e ih =>
    rw [run_snoc, run_snoc]
    exact step_skeleton host host' _ _ e ih

theorem run_requests_host (host host' : Host) (events : List Event) :
    (run host events).requests = (run host' events).requests := by
  have h := congrArg Session.requests (run_skeleton host host' events)
  exact h

theorem run_timers_host (host host' : Host) (events : List Event) :
    (run host events).timers = (run host' events).timers := by
  have h := congrArg Session.timers (run_skeleton host host' events)
  exact h

theorem elapse_no_timers (host : Host) (s : Session) (d : Nat) (h : s.timers = []) :
    (elapse host s d).requests = s.requests := by
  unfold elapse
  rw [h]
  rfl

/-! ## The live scenario and the error state -/

/-- C16, refuted as stated: with live mode on at instant 0 and off at 25000 ms, queries
are sent at 0 (mount), 0 (the on toggle), 10000, 20000 and 25000 (the off toggle): four
fetches follow the initial one, not at most two, and one is started at the off toggle. -/
theorem live_scenario_counterexample :
    (run asciiHost liveScenario).requests.map Prod.fst = [0, 0, 10000, 20000, 25000] ∧
    ¬ ((run asciiHost liveScenario).requests.length - 1 ≤ 2) ∧
    (run asciiHost [Event.toggleAutoRefresh, Event.elapse 25000]).clock = 25000 ∧
    (run asciiHost liveScenario).requests =
      (run asciiHost [Event.toggleAutoRefresh, Event.elapse 25000]).requests ++
        [(25000, fetchParams initialState)] := by
  decide

/-- C16, amended: with live mode switched on at instant 0 and off at 25000 ms, the time
range unchanged, each of the two toggles starts one fetch (at 0 and at 25000) and the
timer starts exactly two (at 10000 and 20000); after the off toggle no timer is armed
and no further fetch is started, however much time passes. -/
theorem live_scenario_fetches (host : Host) (d : Nat) :
    (run host []).requests.map Prod.fst = [0] ∧
    (run host [Event.toggleAutoRefresh]).requests.map Prod.fst = [0, 0] ∧
    (run host [Event.toggleAutoRefresh, Event.elapse 25000]).requests.map Prod.fst =
      [0, 0, 10000, 20000] ∧
    (run host liveScenario).requests.map Prod.fst = [0, 0, 10000, 20000, 25000] ∧
    (run host liveScenario).timers = [] ∧
    (run host (liveScenario ++ [Event.elapse d])).requests = (run host liveScenario).requests := by
  refine ⟨?_, ?_, ?_, ?_, ?_, ?_⟩
  · rw [run_requests_host host asciiHost]; decide
  · rw [run_requests_host host asciiHost]; decide
  · rw [run_requests_host host asciiHost]; decide
  · rw [run_requests_host host asciiHost]; decide
  · rw [run_timers_host host asciiHost]; decide
  · rw [run_snoc]
    refine elapse_no_timers host _ d ?_
    rw [run_timers_host host asciiHost]; decide

theorem settle_resolved_state (host : Host) (s : Session) (i : Nat) (data : LogsResponse) :
    (settle host s i (GetLogsResult.resolved (some data))).state =
      filterLogs host
        { s.state with logs := data.logs.getD [], logsRef := s.state.logsRef + 1,
                       loading := false } := by
  simp [settle, commit, fetchLogsSettle, fetchDepsChanged, filterDepsChanged]

/-- C19, refuted as stated: four records are stored and a second fetch is pending.  If it
fails, the nine state cells are exactly those reached if it succeeds with the same four
records, and exactly those the session had before the fetch was started: no cell
tells the failure from the success. -/
theorem error_state_counterexample :
    (settle asciiHost refetchScenario 0 GetLogsResult.rejected).state.cells =
      (settle asciiHost refetchScenario 0 (GetLogsResult.resolved
        (some { logs := some refetchScenario.state.logs, csv := none }))).state.cells ∧
    (settle asciiHost refetchScenario 0 GetLogsResult.rejected).state.cells =
      loadedScenario.state.cells ∧
    (settle asciiHost refetchScenario 0 GetLogsResult.rejected).state.logs.length = 4 := by
  decide

/-- C19, amended: a failed fetch writes no state cell but `loading`, which it clears as a
successful fetch does; the failure is surfaced by a toast only.  The stored records and
the view stay as they were, and when the view is the filter of the stored records the
nine cells are those reached by a successful fetch that returns the stored records. -/
theorem failed_fetch_records_no_error (host : Host) (s : Session) (i : Nat)
    (hview : s.state.filteredLogs = (filterLogs host s.state).filteredLogs) :
    (settle host s i GetLogsResult.rejected).state.cells =
      ({ s.state with loading := false } : State).cells ∧
    (settle host s i GetLogsResult.rejected).state.toasts =
      s.state.toasts ++ [fetchErrorToast] ∧
    (settle host s i GetLogsResult.rejected).state.logs = s.state.logs ∧
    (settle host s i GetLogsResult.rejected).state.filteredLogs = s.state.filteredLogs ∧
    (settle host s i GetLogsResult.rejected).state.cells =
      (settle host s i (GetLogsResult.resolved
        (some { logs := some s.state.logs, csv := none }))).state.cells := by
  rw [settle_rejected_state, settle_resolved_state]
  refine ⟨rfl, rfl, rfl, rfl, ?_⟩
  have hf : (filterLogs host
      { s.state with logs := (some s.state.logs).getD [], logsRef := s.state.logsRef + 1,
                     loading := false }).filteredLogs = s.state.filteredLogs := by
    rw [hview, filteredLogs_eq_filter, filteredLogs_eq_filter]
    exact congrArg (fun k => List.filter k s.state.logs)
      (keeps_congr host s.state _ rfl rfl rfl)
  simp only [State.cells, hf]
  rfl

/-- C19 amended, evaluated on the session with four records and a pending second fetch. -/
theorem failed_fetch_records_no_error_witness :
    refetchScenario.state.filteredLogs = (filterLogs asciiHost refetchScenario.state).filteredLogs ∧
    (settle asciiHost refetchScenario 0 GetLogsResult.rejected).state.toasts = [fetchErrorToast] ∧
    (settle asciiHost refetchScenario 0 GetLogsResult.rejected).state.cells =
      (settle asciiHost refetchScenario 0 (GetLogsResult.resolved
        (some { logs := some refetchScenario.state.logs, csv := none }))).state.cells :=
  ⟨by decide, by decide,
    (failed_fetch_records_no_error asciiHost refetchScenario 0 (by decide)).2.2.2.2⟩

/-! ## Export failure, row expansion -/

/-- C21: when the export query is rejected, `exportLogs` raises the error toast and
hands no file to the browser: the downloads are those there were before, and the stored
records, the filtered view and every other state cell are unchanged. -/
theorem failed_export_no_file (host : Host) (s : Session) (i : Nat) :
    (exportLogsSettle host s i GetLogsResult.rejected).downloads = s.downloads ∧
    (exportLogsSettle host s i GetLogsResult.rejected).state.toasts =
      s.state.toasts ++ [exportErrorToast] ∧
    (exportLogsSettle host s i GetLogsResult.rejected).state.logs = s.state.logs ∧
    (exportLogsSettle host s i GetLogsResult.rejected).state.filteredLogs =
      s.state.filteredLogs ∧
    (exportLogsSettle host s i GetLogsResult.rejected).state.cells = s.state.cells ∧
    (step host (callExportLogs s) (Event.settleExport s.exportsInFlight.length
      GetLogsResult.rejected)).downloads = s.downloads ∧
    (step host (callExportLogs s) (Event.settleExport s.exportsInFlight.length
      GetLogsResult.rejected)).state.cells = s.state.cells := by
  refine ⟨rfl, rfl, rfl, rfl, rfl, ?_, ?_⟩ <;>
    simp [step, callExportLogs, exportLogsSettle, State.cells]

/-- C28: `toggleRowExpansion(x)` flips the membership of `x` in the set of expanded rows
and leaves the membership of every other id as it was; toggling `x` twice gives a set
with the members it had at first.  No other cell is written. -/
theorem toggleRowExpansion_flips (st : State) (x : Nat) :
    (x ∈ (toggleRowExpansion st x).expandedRows ↔ x ∉ st.expandedRows) ∧
    (∀ y, y ≠ x → (y ∈ (toggleRowExpansion st x).expandedRows ↔ y ∈ st.expandedRows)) ∧
    (∀ y, y ∈ (toggleRowExpansion (toggleRowExpansion st x) x).expandedRows ↔
      y ∈ st.expandedRows) ∧
    (toggleRowExpansion st x).cells = { st.cells with
      expandedRows := (toggleRowExpansion st x).expandedRows } := by
  have hx : x ∈ (toggleRowExpansion st x).expandedRows ↔ x ∉ st.expandedRows := by
    unfold toggleRowExpansion
    by_cases h : x ∈ st.expandedRows <;> simp [h]
  have hy : ∀ (t : State) (y : Nat), y ≠ x →
      (y ∈ (toggleRowExpansion t x).expandedRows ↔ y ∈ t.expandedRows) := by
    intro t y hne
    unfold toggleRowExpansion
    by_cases h : x ∈ t.expandedRows <;> simp [h, hne]
  have hx2 : ∀ t : State, (x ∈ (toggleRowExpansion t x).expandedRows ↔ x ∉ t.expandedRows) := by
    intro t
    unfold toggleRowExpansion
    by_cases h : x ∈ t.expandedRows <;> simp [h]
  refine ⟨hx, hy st, fun y => ?_, rfl⟩
  by_cases hne : y = x
  · subst hne
    rw [hx2, hx2]
    exact not_not
  · rw [hy _ y hne, hy _ y hne]

/-! ## Badges, the stale query of the timer, search terms -/

theorem getLevelBadge_default (host : Host) (level : String)
    (hfive : host.toLowerCase level ∉ ["error", "warning", "info", "success", "debug"])
    (hproto : host.toLowerCase level ∉ objectPrototypeKeys) :
    (getLevelBadge host level).variant = VariantValue.string "outline" ∧
    getLevelIcon host level = { component := "Info", className := "w-4 h-4 text-gray-500" } := by
  simp only [List.mem_cons, List.mem_singleton, List.not_mem_nil, or_false, not_or] at hfive
  obtain ⟨h1, h2, h3, h4, h5⟩ := hfive
  constructor
  · simp [getLevelBadge, variants, h1, h2, h3, h4, h5, hproto]
  · simp [getLevelIcon, h1, h2, h3, h4]

/-- C24, the code at the failing input: the level "constructor" is none of the five
levels, and `getLevelIcon` gives it the default gray icon, but `variants["constructor"]`
is the function inherited from `Object.prototype`, which is truthy, so the badge variant
is that value and not 'outline'. -/
theorem badge_variant_inherited :
    asciiHost.toLowerCase "constructor" ∉ ["error", "warning", "info", "success", "debug"] ∧
    getLevelIcon asciiHost "constructor" =
      { component := "Info", className := "w-4 h-4 text-gray-500" } ∧
    (getLevelBadge asciiHost "constructor").variant = VariantValue.inherited "constructor" ∧
    (getLevelBadge asciiHost "constructor").variant ≠ VariantValue.string "outline" ∧
    (getLevelBadge asciiHost "verbose").variant = VariantValue.string "outline" := by
  decide

/-- C25, the code at the failing input: live mode is switched on under the service
"all", then "backend" is selected.  The tick that follows queries the source without a
service, the query of the render that armed the timer, while the query of the state
current at the tick names "backend", as the one a click on "Actualiser" sends then. -/
theorem timer_query_stale :
    (run asciiHost staleScenario).state.selectedService = "backend" ∧
    (run asciiHost staleScenario).requests.getLast? =
      some (10000, { timeRange := "24h", service := none, level := none, exportFlag := false }) ∧
    fetchParams (run asciiHost staleScenario).state =
      { timeRange := "24h", service := some "backend", level := none, exportFlag := false } ∧
    (run asciiHost staleScenario).requests.getLast? ≠
      some (10000, fetchParams (run asciiHost staleScenario).state) ∧
    (run asciiHost (staleScenario ++ [Event.actualiser])).requests.getLast? =
      some (10000, fetchParams (run asciiHost staleScenario).state) := by
  decide

theorem statErreurs_countP (host : Host) (now : Int) (st : State) :
    statErreurs host now st =
      (displayLogs host now st).countP (fun r => decide (r.level = "error")) := by
  unfold statErreurs
  rw [List.countP_eq_length_filter]
  congr 2

theorem statAvertissements_countP (host : Host) (now : Int) (st : State) :
    statAvertissements host now st =
      (displayLogs host now st).countP (fun r => decide (r.level = "warning")) := by
  unfold statAvertissements
  rw [List.countP_eq_length_filter]
  congr 2

theorem displayLogs_cons (host : Host) (now : Int) (st : State) (r : LogRecord) :
    displayLogs host now { st with filteredLogs := r :: st.filteredLogs } =
      r :: st.filteredLogs := by
  simp [displayLogs]

theorem badge_destructive_iff (host : Host) (level : String) :
    (getLevelBadge host level).variant = VariantValue.string "destructive" ↔
      host.toLowerCase level = "error" := by
  show (variants (host.toLowerCase level)).getD (VariantValue.string "outline") = _ ↔ _
  unfold variants
  constructor
  · intro h
    by_contra hne
    rw [if_neg hne] at h
    split_ifs at h <;> simp at h
  · intro h
    rw [if_pos h]
    rfl

theorem badge_secondary_iff (host : Host) (level : String) :
    (getLevelBadge host level).variant = VariantValue.string "secondary" ↔
      host.toLowerCase level = "warning" := by
  show (variants (host.toLowerCase level)).getD (VariantValue.string "outline") = _ ↔ _
  unfold variants
  constructor
  · intro h
    by_contra hne
    split_ifs at h <;> simp at h
  · intro h
    have he : host.toLowerCase level ≠ "error" := by
      rw [h]
      decide
    rw [if_neg he, if_pos h]
    rfl

/-- C26: the statistics compare the level as it is spelled and the badge folds its case.
In every state "Erreurs" is the number of displayed records whose level is the text
"error" and "Avertissements" the number whose level is the text "warning": one more
displayed record raises "Erreurs" by one exactly when its level is spelled "error".
The badge is 'destructive' exactly when the lower-cased level is "error" ('secondary'
exactly when it is "warning").  So a displayed record of level "ERROR" gets the
'destructive' badge and leaves "Erreurs" as it is, over whatever view it joins, while
every displayed record counted in "Erreurs" gets the 'destructive' badge.  The host is
assumed to lower-case "ERROR" and "error" to "error". -/
theorem level_case_mismatch (host : Host) (now : Int)
    (hupper : host.toLowerCase "ERROR" = "error") (hlower : host.toLowerCase "error" = "error") :
    (∀ st : State, statErreurs host now st =
      (displayLogs host now st).countP (fun r => decide (r.level = "error"))) ∧
    (∀ st : State, statAvertissements host now st =
      (displayLogs host now st).countP (fun r => decide (r.level = "warning"))) ∧
    (∀ (st : State) (r : LogRecord),
      statErreurs host now { st with filteredLogs := r :: st.filteredLogs } =
        (if r.level = "error" then 1 else 0) +
          st.filteredLogs.countP (fun x => decide (x.level = "error"))) ∧
    (∀ level : String,
      ((getLevelBadge host level).variant = VariantValue.string "destructive" ↔
        host.toLowerCase level = "error") ∧
      ((getLevelBadge host level).variant = VariantValue.string "secondary" ↔
        host.toLowerCase level = "warning")) ∧
    (∀ (st : State) (r : LogRecord), r.level = "ERROR" →
      r ∈ displayLogs host now { st with filteredLogs := r :: st.filteredLogs } ∧
      (getLevelBadge host r.level).variant = VariantValue.string "destructive" ∧
      statErreurs host now { st with filteredLogs := r :: st.filteredLogs } =
        st.filteredLogs.countP (fun x => decide (x.level = "error"))) ∧
    (∃ r, r ∈ displayLogs host now upperErrorScenario ∧ r.level = "ERROR" ∧
      (getLevelBadge host r.level).variant = VariantValue.string "destructive" ∧
      r ∉ (displayLogs host now upperErrorScenario).filter (fun log => log.level == "error") ∧
      statErreurs host now upperErrorScenario = 0) ∧
    (statErreurs host now mixedCaseScenario = 1 ∧
      ∀ r ∈ displayLogs host now mixedCaseScenario,
        (getLevelBadge host r.level).variant = VariantValue.string "destructive") ∧
    (∀ (st : State) (r : LogRecord),
      r ∈ (displayLogs host now st).filter (fun log => log.level == "error") →
      (getLevelBadge host r.level).variant = VariantValue.string "destructive") := by
  have hcons : ∀ (st : State) (r : LogRecord),
      statErreurs host now { st with filteredLogs := r :: st.filteredLogs } =
        (if r.level = "error" then 1 else 0) +
          st.filteredLogs.countP (fun x => decide (x.level = "error")) := by
    intro st r
    rw [statErreurs_countP, displayLogs_cons, List.countP_cons]
    by_cases h : r.level = "error" <;> simp [h, Nat.add_comm]
  have hd : displayLogs host now upperErrorScenario =
      [sampleRecord 1 "ERROR" "backend" "boom"] := by
    rw [displayLogs_of_nonempty host now upperErrorScenario (by decide)]
    decide
  have hm : displayLogs host now mixedCaseScenario =
      [sampleRecord 1 "ERROR" "backend" "boom", sampleRecord 2 "error" "api" "bang"] := by
    rw [displayLogs_of_nonempty host now mixedCaseScenario (by decide)]
    decide
  refine ⟨statErreurs_countP host now, statAvertissements_countP host now, hcons,
    fun level => ⟨badge_destructive_iff host level, badge_secondary_iff host level⟩,
    ?_, ?_, ?_, ?_⟩
  · intro st r hr
    refine ⟨?_, ?_, ?_⟩
    · rw [displayLogs_cons]
      exact List.mem_cons_self r _
    · rw [badge_destructive_iff, hr, hupper]
    · rw [hcons, hr]
      simp
  · refine ⟨sampleRecord 1 "ERROR" "backend" "boom", ?_, rfl, ?_, ?_, ?_⟩
    · rw [hd]
      exact List.mem_singleton.mpr rfl
    · rw [badge_destructive_iff]
      exact hupper
    · rw [hd]
      decide
    · rw [statErreurs_countP, hd]
      decide
  · constructor
    · rw [statErreurs_countP, hm]
      decide
    · intro r hr
      rw [hm] at hr
      rw [badge_destructive_iff]
      rcases List.mem_cons.mp hr with h | h
      · rw [h]
        exact hupper
      · rw [List.mem_singleton.mp h]
        exact hlower
  · intro st r hr
    have hl : r.level = "error" := by
      have h := (List.mem_filter.mp hr).2
      simpa using h
    rw [badge_destructive_iff, hl, hlower]

/-- C26, evaluated with the ASCII case mapping: over the view of an "ERROR" record and
an "error" record both badges are 'destructive' and "Erreurs" reads 1; the badge of
"info" is not 'destructive'. -/
theorem level_case_mismatch_witness :
    asciiHost.toLowerCase "ERROR" = "error" ∧ asciiHost.toLowerCase "error" = "error" ∧
    (getLevelBadge asciiHost "ERROR").variant = VariantValue.string "destructive" ∧
    (getLevelBadge asciiHost "error").variant = VariantValue.string "destructive" ∧
    (getLevelBadge asciiHost "info").variant ≠ VariantValue.string "destructive" ∧
    statErreurs asciiHost 0 upperErrorScenario = 0 ∧
    statErreurs asciiHost 0 mixedCaseScenario = 1 ∧
    statErreurs asciiHost 0 mixedViewScenario = 2 ∧
    (∀ st : State, statErreurs asciiHost 0 st =
      (displayLogs asciiHost 0 st).countP (fun r => decide (r.level = "error"))) ∧
    (∀ (st : State) (r : LogRecord),
      r ∈ (displayLogs asciiHost 0 st).filter (fun log => log.level == "error") →
      (getLevelBadge asciiHost r.level).variant = VariantValue.string "destructive") :=
  ⟨by decide, by decide, by decide, by decide, by decide, by decide, by decide, by decide,
    (level_case_mismatch asciiHost 0 (by decide) (by decide)).1,
    (level_case_mismatch asciiHost 0 (by decide) (by decide)).2.2.2.2.2.2.2⟩

/-- C27, refuted as stated: the capitals alpha-sigma are a substring of the capitals
alpha-sigma-alpha, but lower-casing turns the first into alpha, final sigma and the
second into alpha, sigma, alpha.  The record whose message is alpha-sigma-alpha is in
the view under the longer term and not in the view under the shorter one. -/
theorem search_narrows_counterexample :
    alphaSigma.data <:+: alphaSigmaAlpha.data ∧
    (greekHost.toLowerCase alphaSigma).data = [Char.ofNat 945, Char.ofNat 962] ∧
    (greekHost.toLowerCase alphaSigmaAlpha).data =
      [Char.ofNat 945, Char.ofNat 963, Char.ofNat 945] ∧
    (filterLogs greekHost { greekScenario with searchTerm := alphaSigmaAlpha }).filteredLogs =
      greekScenario.logs ∧
    (filterLogs greekHost { greekScenario with searchTerm := alphaSigma }).filteredLogs = [] ∧
    ¬ List.Sublist
      (filterLogs greekHost { greekScenario with searchTerm := alphaSigmaAlpha }).filteredLogs
      (filterLogs greekHost { greekScenario with searchTerm := alphaSigma }).filteredLogs := by
  refine ⟨⟨[], [Char.ofNat 913], by decide⟩, by decide, by decide, by decide, by decide,
    by decide⟩

/-- C27, amended: for every record list, service and level selection and all terms `s`
and `t` such that `s` is a substring of `t` and the lower-cased `s` is a substring of
the lower-cased `t`, the view under `t` is a sublist of the view under `s`. -/
theorem search_narrows (host : Host) (st : State) (s t : String)
    (hsub : s.data <:+: t.data)
    (hlow : (host.toLowerCase s).data <:+: (host.toLowerCase t).data) :
    List.Sublist (filterLogs host { st with searchTerm := t }).filteredLogs
      (filterLogs host { st with searchTerm := s }).filteredLogs := by
  rw [filteredLogs_eq_filter, filteredLogs_eq_filter]
  show List.Sublist (List.filter _ st.logs) (List.filter _ st.logs)
  apply List.monotone_filter_right
  intro r hr
  simp only [Spec.keeps, Bool.and_eq_true, Bool.or_eq_true, decide_eq_true_eq] at hr ⊢
  obtain ⟨⟨h1, h2⟩, h3⟩ := hr
  refine ⟨⟨?_, h2⟩, h3⟩
  rcases h1 with h1 | h1
  · left
    have ht : t.data = [] := by
      have h := congrArg String.data h1
      exact h
    rw [ht] at hsub
    have hs : s.data = [] := List.eq_nil_of_infix_nil hsub
    exact String.ext hs
  · right
    rw [matchesSearch_iff] at h1 ⊢
    rcases h1 with h | h | ⟨u, hu, h⟩
    · exact Or.inl (hlow.trans h)
    · exact Or.inr (Or.inl (hlow.trans h))
    · exact Or.inr (Or.inr ⟨u, hu, hlow.trans h⟩)

/-- C27 amended, evaluated: "heal" and "health" over the two records of the scenario. -/
theorem search_narrows_witness :
    "heal".data <:+: "health".data ∧
    (asciiHost.toLowerCase "heal").data <:+: (asciiHost.toLowerCase "health").data ∧
    List.Sublist (filterLogs asciiHost { healthScenario with searchTerm := "health" }).filteredLogs
      (filterLogs asciiHost { healthScenario with searchTerm := "heal" }).filteredLogs :=
  ⟨⟨[], ['t', 'h'], by decide⟩, ⟨[], ['t', 'h'], by decide⟩,
    search_narrows asciiHost healthScenario "heal" "health" ⟨[], ['t', 'h'], by decide⟩
      ⟨[], ['t', 'h'], by decide⟩⟩

/-! ## Untyped records: the filter and the statistics do not throw -/

theorem filterThrowing_ok {α : Type} (p : α → Except JsError Bool) (l : List α)
    (h : ∀ a ∈ l, ∃ b, p a = Except.ok b) :
    ∃ view, filterThrowing p l = Except.ok view ∧ List.Sublist view l := by
  induction l with
  | nil => exact ⟨[], rfl, List.Sublist.slnil⟩
  | cons a rest ih =>
    obtain ⟨b, hb⟩ := h a (List.mem_cons_self a rest)
    obtain ⟨kept, hk, hsub⟩ := ih (fun x hx => h x (List.mem_cons_of_mem a hx))
    refine ⟨if b then a :: kept else kept, ?_, ?_⟩
    · simp only [filterThrowing, hb, hk]
    · cases b
      · exact List.Sublist.cons a hsub
      · exact List.Sublist.cons₂ a hsub

theorem mapThrowing_ok {α β : Type} (f : α → Except JsError β) (l : List α)
    (h : ∀ a ∈ l, ∃ b, f a = Except.ok b) :
    ∃ bs, mapThrowing f l = Except.ok bs := by
  induction l with
  | nil => exact ⟨[], rfl⟩
  | cons a rest ih =>
    obtain ⟨b, hb⟩ := h a (List.mem_cons_self a rest)
    obtain ⟨bs, hbs⟩ := ih (fun x hx => h x (List.mem_cons_of_mem a hx))
    exact ⟨b :: bs, by simp only [mapThrowing, hb, hbs]⟩

theorem filterThrowing_map {α β : Type} (f : α → β) (p : β → Except JsError Bool)
    (q : α → Bool) (h : ∀ a, p (f a) = Except.ok (q a)) (l : List α) :
    filterThrowing p (l.map f) = Except.ok ((l.filter q).map f) := by
  induction l with
  | nil => rfl
  | cons a rest ih =>
    simp only [List.map_cons, filterThrowing, h, ih, List.filter_cons]
    cases q a <;> rfl

theorem wellFormed_fields (entry : Option RawLog) (h : Spec.wellFormed entry = true) :
    ∃ log m sv lv, entry = some log ∧ log.message = JsValue.string m ∧
      log.service = JsValue.string sv ∧ log.level = JsValue.string lv ∧
      (log.user_id = JsValue.undefined ∨ log.user_id = JsValue.null ∨
        ∃ u, log.user_id = JsValue.string u) := by
  cases entry with
  | none => exact absurd h (by decide)
  | some log =>
    simp only [Spec.wellFormed, Bool.and_eq_true] at h
    obtain ⟨⟨⟨h1, h2⟩, h3⟩, h4⟩ := h
    have hm : ∃ m, log.message = JsValue.string m := by
      cases hv : log.message <;> simp [hv] at h1
      exact ⟨_, rfl⟩
    have hs : ∃ sv, log.service = JsValue.string sv := by
      cases hv : log.service <;> simp [hv] at h2
      exact ⟨_, rfl⟩
    have hl : ∃ lv, log.level = JsValue.string lv := by
      cases hv : log.level <;> simp [hv] at h3
      exact ⟨_, rfl⟩
    have hu : log.user_id = JsValue.undefined ∨ log.user_id = JsValue.null ∨
        ∃ u, log.user_id = JsValue.string u := by
      cases hv : log.user_id <;> simp [hv] at h4 <;> simp
    obtain ⟨m, hm⟩ := hm
    obtain ⟨sv, hs⟩ := hs
    obtain ⟨lv, hl⟩ := hl
    exact ⟨log, m, sv, lv, rfl, hm, hs, hl, hu⟩

theorem rawMatchesSearch_ok (host : Host) (term : String) (entry : Option RawLog)
    (h : Spec.wellFormed entry = true) : ∃ b, rawMatchesSearch host term entry = Except.ok b := by
  obtain ⟨log, m, sv, lv, he, hm, hs, _, hu⟩ := wellFormed_fields entry h
  subst he
  unfold rawMatchesSearch
  simp only [readEntry, hm, hs, callToLowerCase]
  by_cases c1 : includes (host.toLowerCase m) (host.toLowerCase term) = true
  · exact ⟨true, by simp [c1]⟩
  · by_cases c2 : includes (host.toLowerCase sv) (host.toLowerCase term) = true
    · exact ⟨true, by simp [c1, c2]⟩
    · rcases hu with hu | hu | ⟨u, hu⟩
      · exact ⟨false, by simp [c1, c2, hu]⟩
      · exact ⟨false, by simp [c1, c2, hu]⟩
      · exact ⟨includes (host.toLowerCase u) (host.toLowerCase term),
          by simp [c1, c2, hu, callToLowerCase]⟩

theorem readEntry_ok (entry : Option RawLog) (prop : RawLog → JsValue)
    (h : Spec.wellFormed entry = true) : ∃ v, readEntry entry prop = Except.ok v := by
  cases entry with
  | none => exact absurd h (by decide)
  | some log => exact ⟨prop log, rfl⟩

theorem readEntry_eq_ok (entry : Option RawLog) (prop : RawLog → JsValue) (key : JsValue)
    (h : Spec.wellFormed entry = true) :
    ∃ b, (match readEntry entry prop with
      | Except.error e => Except.error e
      | Except.ok v => Except.ok (v == key) : Except JsError Bool) = Except.ok b := by
  cases entry with
  | none => exact absurd h (by decide)
  | some log => exact ⟨prop log == key, rfl⟩

theorem wellFormed_ofRecord (r : LogRecord) : Spec.wellFormed (some (ofRecord r)) = true := by
  cases hu : r.user_id <;> simp [Spec.wellFormed, ofRecord, hu]

theorem rawFilterLogs_ok (host : Host) (logs : List (Option RawLog))
    (searchTerm selectedService selectedLevel : String)
    (hwf : ∀ e ∈ logs, Spec.wellFormed e = true) :
    ∃ view, rawFilterLogs host logs searchTerm selectedService selectedLevel = Except.ok view ∧
      List.Sublist view logs := by
  have h1 : ∃ v1, (if searchTerm ≠ "" then
        filterThrowing (rawMatchesSearch host searchTerm) logs
      else Except.ok logs) = Except.ok v1 ∧ List.Sublist v1 logs := by
    by_cases c : searchTerm ≠ ""
    · rw [if_pos c]
      exact filterThrowing_ok _ logs (fun e he => rawMatchesSearch_ok host searchTerm e (hwf e he))
    · rw [if_neg c]
      exact ⟨logs, rfl, List.Sublist.refl logs⟩
  obtain ⟨v1, e1, s1⟩ := h1
  have w1 : ∀ e ∈ v1, Spec.wellFormed e = true := fun e he => hwf e (s1.subset he)
  have h2 : ∃ v2, (if selectedService ≠ "all" then
        filterThrowing (fun entry =>
          match readEntry entry (fun log => log.service) with
          | Except.error e => Except.error e
          | Except.ok v => Except.ok (v == JsValue.string selectedService)) v1
      else Except.ok v1) = Except.ok v2 ∧ List.Sublist v2 v1 := by
    by_cases c : selectedService ≠ "all"
    · rw [if_pos c]
      exact filterThrowing_ok _ v1 (fun e he => readEntry_eq_ok e _ _ (w1 e he))
    · rw [if_neg c]
      exact ⟨v1, rfl, List.Sublist.refl v1⟩
  obtain ⟨v2, e2, s2⟩ := h2
  have w2 : ∀ e ∈ v2, Spec.wellFormed e = true := fun e he => w1 e (s2.subset he)
  have h3 : ∃ v3, (if selectedLevel ≠ "all" then
        filterThrowing (fun entry =>
          match readEntry entry (fun log => log.level) with
          | Except.error e => Except.error e
          | Except.ok v => Except.ok (v == JsValue.string selectedLevel)) v2
      else Except.ok v2) = Except.ok v3 ∧ List.Sublist v3 v2 := by
    by_cases c : selectedLevel ≠ "all"
    · rw [if_pos c]
      exact filterThrowing_ok _ v2 (fun e he => readEntry_eq_ok e _ _ (w2 e he))
    · rw [if_neg c]
      exact ⟨v2, rfl, List.Sublist.refl v2⟩
  obtain ⟨v3, e3, s3⟩ := h3
  refine ⟨v3, ?_, (s3.trans s2).trans s1⟩
  unfold rawFilterLogs
  simp only [e1, e2, e3]

theorem rawStatistics_ok (display : List (Option RawLog))
    (hwf : ∀ e ∈ display, Spec.wellFormed e = true) :
    ∃ stats, rawStatistics display = Except.ok stats ∧ stats.totalLogs = display.length := by
  obtain ⟨errors, he, _⟩ := filterThrowing_ok (fun entry =>
      match readEntry entry (fun log => log.level) with
      | Except.error e => Except.error e
      | Except.ok v => Except.ok (v == JsValue.string "error")) display
    (fun e h => readEntry_eq_ok e _ _ (hwf e h))
  obtain ⟨warnings, hw, _⟩ := filterThrowing_ok (fun entry =>
      match readEntry entry (fun log => log.level) with
      | Except.error e => Except.error e
      | Except.ok v => Except.ok (v == JsValue.string "warning")) display
    (fun e h => readEntry_eq_ok e _ _ (hwf e h))
  obtain ⟨services, hs⟩ := mapThrowing_ok
    (fun entry => readEntry entry (fun log => log.service)) display
    (fun e h => readEntry_ok e _ (hwf e h))
  refine ⟨{ totalLogs := display.length, erreurs := errors.length,
            avertissements := warnings.length, servicesActifs := services.dedup.length },
    ?_, rfl⟩
  unfold rawStatistics
  simp only [he, hw, hs]

theorem rawMatchesSearch_ofRecord (host : Host) (term : String) (r : LogRecord) :
    rawMatchesSearch host term (some (ofRecord r)) = Except.ok (matchesSearch host term r) := by
  unfold rawMatchesSearch matchesSearch
  simp only [readEntry, ofRecord, callToLowerCase]
  by_cases c1 : includes (host.toLowerCase r.message) (host.toLowerCase term) = true
  · simp [c1]
  · by_cases c2 : includes (host.toLowerCase r.service) (host.toLowerCase term) = true
    · simp [c1, c2]
    · cases hu : r.user_id <;> simp [c1, c2, callToLowerCase]

theorem rawFilterLogs_ofRecord (host : Host) (st : State) :
    rawFilterLogs host (st.logs.map (fun r => some (ofRecord r))) st.searchTerm
        st.selectedService st.selectedLevel =
      Except.ok ((filterLogs host st).filteredLogs.map (fun r => some (ofRecord r))) := by
  have e1 : (if st.searchTerm ≠ "" then
        filterThrowing (rawMatchesSearch host st.searchTerm)
          (st.logs.map (fun r => some (ofRecord r)))
      else Except.ok (st.logs.map (fun r => some (ofRecord r)))) =
      Except.ok ((if st.searchTerm ≠ "" then st.logs.filter (matchesSearch host st.searchTerm)
        else st.logs).map (fun r => some (ofRecord r))) := by
    by_cases c : st.searchTerm ≠ ""
    · rw [if_pos c, if_pos c]
      exact filterThrowing_map _ _ _ (rawMatchesSearch_ofRecord host st.searchTerm) st.logs
    · rw [if_neg c, if_neg c]
  have e2 : ∀ l : List LogRecord, (if st.selectedService ≠ "all" then
        filterThrowing (fun entry =>
          match readEntry entry (fun log => log.service) with
          | Except.error e => Except.error e
          | Except.ok v => Except.ok (v == JsValue.string st.selectedService))
          (l.map (fun r => some (ofRecord r)))
      else Except.ok (l.map (fun r => some (ofRecord r)))) =
      Except.ok ((if st.selectedService ≠ "all" then
          l.filter (fun log => log.service == st.selectedService)
        else l).map (fun r => some (ofRecord r))) := by
    intro l
    by_cases c : st.selectedService ≠ "all"
    · rw [if_pos c, if_pos c]
      refine filterThrowing_map _ _ _ (fun r => ?_) l
      simp [readEntry, ofRecord]
    · rw [if_neg c, if_neg c]
  have e3 : ∀ l : List LogRecord, (if st.selectedLevel ≠ "all" then
        filterThrowing (fun entry =>
          match readEntry entry (fun log => log.level) with
          | Except.error e => Except.error e
          | Except.ok v => Except.ok (v == JsValue.string st.selectedLevel))
          (l.map (fun r => some (ofRecord r)))
      else Except.ok (l.map (fun r => some (ofRecord r)))) =
      Except.ok ((if st.selectedLevel ≠ "all" then
          l.filter (fun log => log.level == st.selectedLevel)
        else l).map (fun r => some (ofRecord r))) := by
    intro l
    by_cases c : st.selectedLevel ≠ "all"
    · rw [if_pos c, if_pos c]
      refine filterThrowing_map _ _ _ (fun r => ?_) l
      simp [readEntry, ofRecord]
    · rw [if_neg c, if_neg c]
  unfold rawFilterLogs
  simp only [e1, e2, e3]
  rfl

/-- C23: on well-formed input, the empty list included, and for every filter state, the
body of `filterLogs` returns a value, a sublist of the input, and the four statistics
expressions return their numbers over the list displayed for it; neither throws.  On
typed records the value returned is the view computed by `filterLogs` above. -/
theorem filter_and_statistics_total (host : Host) (now : Int) (logs : List (Option RawLog))
    (searchTerm selectedService selectedLevel : String)
    (hwf : ∀ e ∈ logs, Spec.wellFormed e = true) :
    (∃ view stats,
      rawFilterLogs host logs searchTerm selectedService selectedLevel = Except.ok view ∧
      List.Sublist view logs ∧
      rawStatistics (rawDisplayLogs host now view) = Except.ok stats ∧
      stats.totalLogs = (rawDisplayLogs host now view).length) ∧
    (∀ st : State,
      rawFilterLogs host (st.logs.map (fun r => some (ofRecord r))) st.searchTerm
          st.selectedService st.selectedLevel =
        Except.ok ((filterLogs host st).filteredLogs.map (fun r => some (ofRecord r)))) := by
  refine ⟨?_, rawFilterLogs_ofRecord host⟩
  obtain ⟨view, hv, hsub⟩ := rawFilterLogs_ok host logs searchTerm selectedService
    selectedLevel hwf
  have hd : ∀ e ∈ rawDisplayLogs host now view, Spec.wellFormed e = true := by
    intro e he
    unfold rawDisplayLogs at he
    split at he
    · exact hwf e (hsub.subset he)
    · obtain ⟨r, _, hr⟩ := List.mem_map.mp he
      rw [← hr]
      exact wellFormed_ofRecord r
  obtain ⟨stats, hs, ht⟩ := rawStatistics_ok _ hd
  exact ⟨view, stats, hv, hsub, hs, ht⟩

/-- C23, evaluated: over two well-formed records, one without a user id, the term
"health" keeps the first record and the statistics of the whole list are 2, 1, 0, 2;
over a record whose message is `null` the same filter throws. -/
theorem filter_and_statistics_total_witness :
    (∀ e ∈ rawScenario, Spec.wellFormed e = true) ∧
    (∃ view stats,
      rawFilterLogs asciiHost rawScenario "health" "all" "all" = Except.ok view ∧
      List.Sublist view rawScenario ∧
      rawStatistics (rawDisplayLogs asciiHost 0 view) = Except.ok stats ∧
      stats.totalLogs = (rawDisplayLogs asciiHost 0 view).length) ∧
    rawFilterLogs asciiHost rawScenario "health" "all" "all" = Except.ok (rawScenario.take 1) ∧
    rawStatistics (rawDisplayLogs asciiHost 0 rawScenario) =
      Except.ok { totalLogs := 2, erreurs := 1, avertissements := 0, servicesActifs := 2 } ∧
    rawFilterLogs asciiHost malformedScenario "health" "all" "all" =
      Except.error (JsError.typeError "Cannot read properties of null") :=
  ⟨by decide,
    (filter_and_statistics_total asciiHost 0 rawScenario "health" "all" "all" (by decide)).1,
    by rfl, by rfl, by rfl⟩

/-! ## The export format: writing, then reading -/

theorem Csv.run_unquoted (l : List Char) (hl : ∀ c ∈ l, Csv.special c = false) :
    ∀ p : Csv.Reader, p.mode = Csv.Mode.fieldStart ∨ p.mode = Csv.Mode.unquoted →
      ∃ m, m ≠ Csv.Mode.quoted ∧
        l.foldl Csv.step p = { rows := p.rows, row := p.row, field := p.field ++ l, mode := m } := by
  induction l with
  | nil =>
    intro p hp
    refine ⟨p.mode, ?_, ?_⟩
    · rcases hp with h | h <;> rw [h] <;> decide
    · simp
  | cons c l ih =>
    intro p hp
    have hc := hl c (List.mem_cons_self c l)
    simp only [Csv.special, Bool.or_eq_false_iff, beq_eq_false_iff_ne, ne_eq] at hc
    obtain ⟨⟨⟨h1, h2⟩, h3⟩, _⟩ := hc
    have hstep : Csv.step p c = Csv.push p c Csv.Mode.unquoted := by
      rcases hp with h | h <;> simp [Csv.step, h, h1, h2, h3]
    obtain ⟨m, hm, hr⟩ := ih (fun x hx => hl x (List.mem_cons_of_mem c hx))
      (Csv.push p c Csv.Mode.unquoted) (Or.inr rfl)
    refine ⟨m, hm, ?_⟩
    rw [List.foldl_cons, hstep, hr]
    simp [Csv.push]

theorem Csv.run_quoted (l : List Char) :
    ∀ p : Csv.Reader, p.mode = Csv.Mode.quoted →
      (Csv.escape l).foldl Csv.step p =
        { rows := p.rows, row := p.row, field := p.field ++ l, mode := Csv.Mode.quoted } := by
  induction l with
  | nil =>
    intro p hp
    cases p
    simp_all [Csv.escape]
  | cons c l ih =>
    intro p hp
    have he : Csv.escape (c :: l) =
        (if c = Csv.quote then [Csv.quote, Csv.quote] else [c]) ++ Csv.escape l := by
      simp [Csv.escape]
    rw [he, List.foldl_append]
    by_cases hc : c = Csv.quote
    · subst hc
      simp only [if_true, List.foldl_cons, List.foldl_nil]
      have h1 : Csv.step p Csv.quote = { p with mode := Csv.Mode.quoteSeen } := by
        simp [Csv.step, hp]
      have h2 : Csv.step { p with mode := Csv.Mode.quoteSeen } Csv.quote =
          Csv.push p Csv.quote Csv.Mode.quoted := by
        simp [Csv.step, Csv.push]
      rw [h1, h2, ih _ rfl]
      simp [Csv.push]
    · simp only [hc, if_false, List.foldl_cons, List.foldl_nil]
      have h1 : Csv.step p c = Csv.push p c Csv.Mode.quoted := by
        simp [Csv.step, hp, hc]
      rw [h1, ih _ rfl]
      simp [Csv.push]

theorem Csv.run_field (f : String) (p : Csv.Reader) (hm : p.mode = Csv.Mode.fieldStart)
    (hf : p.field = []) :
    ∃ m, m ≠ Csv.Mode.quoted ∧
      (Csv.field f).foldl Csv.step p =
        { rows := p.rows, row := p.row, field := f.data, mode := m } := by
  unfold Csv.field
  by_cases hs : f.data.any Csv.special = true
  · rw [if_pos hs]
    refine ⟨Csv.Mode.quoteSeen, by decide, ?_⟩
    have h1 : Csv.step p Csv.quote = { p with mode := Csv.Mode.quoted } := by
      simp [Csv.step, hm]
    rw [List.foldl_cons, h1, List.foldl_append, Csv.run_quoted f.data _ rfl]
    simp [Csv.step, hf]
  · rw [if_neg hs]
    have hl : ∀ c ∈ f.data, Csv.special c = false := by
      intro c hc
      by_contra hcon
      exact hs (List.any_eq_true.mpr ⟨c, hc, by simpa using hcon⟩)
    obtain ⟨m, hmq, hr⟩ := Csv.run_unquoted f.data hl p (Or.inl hm)
    exact ⟨m, hmq, by rw [hr, hf]; rfl⟩

theorem Csv.step_comma (p : Csv.Reader) (hm : p.mode ≠ Csv.Mode.quoted) :
    Csv.step p Csv.comma = Csv.endField p := by
  have hq : Csv.comma ≠ Csv.quote := by decide
  cases h : p.mode <;> simp [Csv.step, h, hq] at hm ⊢

theorem Csv.step_lineFeed (p : Csv.Reader) (hm : p.mode ≠ Csv.Mode.quoted) :
    Csv.step p Csv.lineFeed = Csv.endRow p := by
  have hq : Csv.lineFeed ≠ Csv.quote := by decide
  have hc : Csv.lineFeed ≠ Csv.comma := by decide
  cases h : p.mode <;> simp [Csv.step, h, hq, hc] at hm ⊢

theorem Csv.run_row (rest : List String) :
    ∀ (f : String) (p : Csv.Reader), p.mode = Csv.Mode.fieldStart → p.field = [] →
      (Csv.row (f :: rest)).foldl Csv.step p =
        { rows := p.rows ++ [p.row ++ f :: rest], row := [], field := [],
          mode := Csv.Mode.fieldStart } := by
  induction rest with
  | nil =>
    intro f p hm hf
    obtain ⟨m, hmq, hr⟩ := Csv.run_field f p hm hf
    rw [Csv.row, List.foldl_append, hr, List.foldl_cons, List.foldl_nil,
      Csv.step_lineFeed _ hmq]
    rfl
  | cons g rest ih =>
    intro f p hm hf
    obtain ⟨m, hmq, hr⟩ := Csv.run_field f p hm hf
    rw [Csv.row, List.foldl_append, hr, List.foldl_cons, Csv.step_comma _ hmq,
      ih g (Csv.endField _) rfl rfl]
    simp [Csv.endField]

theorem Csv.run_rows (rows : List (List String)) (hne : ∀ r ∈ rows, r ≠ []) :
    ∀ p : Csv.Reader, p.mode = Csv.Mode.fieldStart → p.row = [] → p.field = [] →
      (rows.flatMap Csv.row).foldl Csv.step p =
        { rows := p.rows ++ rows, row := [], field := [], mode := Csv.Mode.fieldStart } := by
  induction rows with
  | nil =>
    intro p hm hr hf
    cases p
    simp_all
  | cons r rows ih =>
    intro p hm hr hf
    have hr0 : r ≠ [] := hne r (List.mem_cons_self r rows)
    obtain ⟨f, rest, rfl⟩ := List.exists_cons_of_ne_nil hr0
    rw [List.flatMap_cons, List.foldl_append, Csv.run_row rest f p hm hf,
      ih (fun x hx => hne x (List.mem_cons_of_mem _ hx)) _ rfl rfl rfl, hr]
    simp

theorem parseCsv_exportCsv (records : List LogRecord) :
    parseCsv (exportCsv records) = records.map Csv.columns := by
  have hflat : (exportCsv records).data = (records.map Csv.columns).flatMap Csv.row := by
    simp [exportCsv, List.flatMap_map]
  have hne : ∀ r ∈ records.map Csv.columns, r ≠ [] := by
    intro r hr
    obtain ⟨x, _, hx⟩ := List.mem_map.mp hr
    rw [← hx]
    simp [Csv.columns]
  unfold parseCsv
  rw [hflat, Csv.run_rows _ hne _ rfl rfl rfl]
  simp [Csv.finish]

/-- C22: for every record set, reading the exported buffer gives back one row per
record, in the column order timestamp, level, service, message, userId, sourceAddress,
requestId, with the field values of the record (the empty text for an absent optional
field), so the message text is unchanged whatever commas, quotes and newlines it holds;
and `exportLogs` hands the buffer it receives to the browser as it is. -/
theorem export_round_trip (host : Host) (s : Session) (i : Nat) (records : List LogRecord) :
    parseCsv (exportCsv records) = records.map Csv.columns ∧
    (parseCsv (exportCsv records)).length = records.length ∧
    (∀ r : LogRecord, Csv.columns r =
      [r.timestamp, r.level, r.service, r.message, r.user_id.getD "", r.ip_address.getD "",
        r.request_id.getD ""]) ∧
    (parseCsv (exportCsv records)).map (fun row => row.get? 3) =
      records.map (fun r => some r.message) ∧
    ((exportLogsSettle host s i (GetLogsResult.resolved
        (some { logs := none, csv := some (exportCsv records) }))).downloads.getLast?).map
      (fun d => d.csv) = some (some (exportCsv records)) := by
  refine ⟨parseCsv_exportCsv records, ?_, fun _ => rfl, ?_, ?_⟩
  · rw [parseCsv_exportCsv, List.length_map]
  · rw [parseCsv_exportCsv, List.map_map]
    rfl
  · simp [exportLogsSettle]

set_option maxRecDepth 100000 in
/-- C22, evaluated: a message with a comma, quotes and a newline is written between
quotes with its quotes doubled, and is read back unchanged. -/
theorem export_round_trip_witness :
    exportCsv (exportScenario.take 1) =
      "2024-01-01T00:00:00.000Z,error,backend," ++
      "\"disk full, \"\"sda\"\" retrying\nsecond line\",,10.0.1.5,\n" ∧
    parseCsv (exportCsv exportScenario) =
      [["2024-01-01T00:00:00.000Z", "error", "backend",
        "disk full, \"sda\" retrying\nsecond line", "", "10.0.1.5", ""],
       ["2024-01-01T00:00:00.000Z", "info", "frontend", "login", "user123", "", "req_abc123"]] ∧
    parseCsv (exportCsv exportScenario) = exportScenario.map Csv.columns :=
  ⟨by decide, by decide, (export_round_trip asciiHost (mount asciiHost) 0 exportScenario).1⟩

end Logs

namespace ImageManager

/-- C29: `handleImageDelete` leaves exactly the images whose id differs from the given
id, in their original order; it clears the selection when the selected image has that
id and leaves the selection as it was otherwise; no other cell is written. -/
theorem handleImageDelete_spec (st : State) (imageId : Nat) :
    (handleImageDelete st imageId).images = st.images.filter (fun img => img.id != imageId) ∧
    List.Sublist (handleImageDelete st imageId).images st.images ∧
    (∀ img, img ∈ (handleImageDelete st imageId).images ↔ (img ∈ st.images ∧ img.id ≠ imageId)) ∧
    (∀ sel, st.selectedImage = some sel → sel.id = imageId →
      (handleImageDelete st imageId).selectedImage = none) ∧
    (∀ sel, st.selectedImage = some sel → sel.id ≠ imageId →
      (handleImageDelete st imageId).selectedImage = st.selectedImage) ∧
    (st.selectedImage = none → (handleImageDelete st imageId).selectedImage = st.selectedImage) ∧
    (handleImageDelete st imageId).loading = st.loading ∧
    (handleImageDelete st imageId).error = st.error ∧
    (handleImageDelete st imageId).showUpload = st.showUpload := by
  refine ⟨rfl, List.filter_sublist _, fun img => ?_, ?_, ?_, ?_, rfl, rfl, rfl⟩
  · show img ∈ st.images.filter (fun img => img.id != imageId) ↔ _
    simp [List.mem_filter]
  · intro sel hs hid
    simp [handleImageDelete, hs, hid]
  · intro sel hs hid
    simp [handleImageDelete, hs, hid]
  · intro hs
    simp [handleImageDelete, hs]

/-- C29, evaluated: deleting the selected image 2 of three leaves images 1 and 3 and no
selection; deleting image 1 leaves the selection on image 2. -/
theorem handleImageDelete_spec_witness :
    (handleImageDelete galleryScenario 2).images =
      [sampleImage 1 "a.png", sampleImage 3 "c.png"] ∧
    (handleImageDelete galleryScenario 2).selectedImage = none ∧
    (handleImageDelete galleryScenario 1).images =
      [sampleImage 2 "b.png", sampleImage 3 "c.png"] ∧
    (handleImageDelete galleryScenario 1).selectedImage = galleryScenario.selectedImage :=
  ⟨by decide,
    (handleImageDelete_spec galleryScenario 2).2.2.2.1 (sampleImage 2 "b.png") rfl rfl,
    by decide,
    (handleImageDelete_spec galleryScenario 1).2.2.2.2.1 (sampleImage 2 "b.png") rfl
      (by decide)⟩

end ImageManager

namespace AuthContext

/-- C30: `login` returns success exactly when the response is ok and the body carries a
truthy success flag and a truthy token; then the token in state and the stored token
are that token.  In every other case, a network or parse error included, it returns a
failure with an error message and leaves the state and the stored token as they were. -/
theorem login_spec (st : State) (username : String) (outcome : LoginOutcome) :
    ((login st username outcome).2.success = true ↔ Spec.accepted outcome = true) ∧
    (∀ ok data, outcome = LoginOutcome.parsed ok (some data) → Spec.accepted outcome = true →
      (login st username outcome).2 = { success := true, error := none } ∧
      (login st username outcome).1.token = data.token ∧
      (login st username outcome).1.storedToken = data.token ∧
      truthy (login st username outcome).1.token = true) ∧
    (Spec.accepted outcome = false →
      (login st username outcome).2.success = false ∧
      (∃ msg, (login st username outcome).2.error = some msg ∧ msg ≠ "") ∧
      (login st username outcome).1 = st) ∧
    (login st username LoginOutcome.networkError).2 =
      { success := false, error := some "Network error" } ∧
    (∀ ok, (login st username (LoginOutcome.parseError ok)).2 =
      { success := false, error := some "Network error" }) := by
  refine ⟨?_, ?_, ?_, rfl, fun _ => rfl⟩
  · rcases outcome with _ | ok | ⟨ok, _ | data⟩
    · simp [login, Spec.accepted]
    · simp [login, Spec.accepted]
    · simp [login, Spec.accepted]
    · show (login st username (LoginOutcome.parsed ok (some data))).2.success = true ↔
        (ok && data.success && truthy data.token) = true
      unfold login
      by_cases h : (ok && data.success && truthy data.token) = true
      · simp only [h, if_true]
      · simp only [h]
        simp
  · intro ok data ho hacc
    subst ho
    have h : (ok && data.success && truthy data.token) = true := hacc
    have ht : truthy data.token = true := by
      simp only [Bool.and_eq_true] at h
      exact h.2
    have hl : login st username (LoginOutcome.parsed ok (some data)) =
        ({ st with
            storedToken := data.token
            token := data.token
            user := some (data.user.getD { username := username, role := none }) },
          { success := true, error := none }) := by
      simp only [login, h, if_true]
    rw [hl]
    exact ⟨rfl, rfl, rfl, ht⟩
  · intro hacc
    rcases outcome with _ | ok | ⟨ok, _ | data⟩
    · exact ⟨rfl, ⟨_, rfl, by decide⟩, rfl⟩
    · exact ⟨rfl, ⟨_, rfl, by decide⟩, rfl⟩
    · exact ⟨rfl, ⟨_, rfl, by decide⟩, rfl⟩
    · have h : (ok && data.success && truthy data.token) = false := hacc
      simp only [login, h]
      refine ⟨rfl, ?_, rfl⟩
      cases he : data.error with
      | none => exact ⟨_, rfl, by decide⟩
      | some e =>
        by_cases hne : e = ""
        · subst hne
          exact ⟨_, rfl, by decide⟩
        · refine ⟨e, ?_, hne⟩
          simp [truthy, hne]

/-- C30, evaluated on a session that holds an earlier token: an ok response with the
success flag and the token "t1" replaces the token in state and in storage; an ok
response whose token is empty, a response that is not ok, and a network error return a
failure and leave the session as it was. -/
theorem login_spec_witness :
    (login signedInScenario "admin" (LoginOutcome.parsed true
      (some { success := true, token := some "t1", user := none, error := none }))).2.success
      = true ∧
    (login signedInScenario "admin" (LoginOutcome.parsed true
      (some { success := true, token := some "t1", user := none, error := none }))).1.token
      = some "t1" ∧
    (login signedInScenario "admin" (LoginOutcome.parsed true
      (some { success := true, token := some "t1", user := none, error := none }))).1.storedToken
      = some "t1" ∧
    login signedInScenario "admin" (LoginOutcome.parsed true
      (some { success := true, token := some "", user := none, error := none })) =
      (signedInScenario, { success := false, error := some "Login failed" }) ∧
    login signedInScenario "admin" (LoginOutcome.parsed false
      (some { success := true, token := some "t1", user := none,
              error := some "Invalid credentials" })) =
      (signedInScenario, { success := false, error := some "Invalid credentials" }) ∧
    login signedInScenario "admin" LoginOutcome.networkError =
      (signedInScenario, { success := false, error := some "Network error" }) :=
  ⟨((login_spec signedInScenario "admin" (LoginOutcome.parsed true
      (some { success := true, token := some "t1", user := none, error := none }))).1).mpr
      (by decide),
    by decide, by decide, by decide, by decide, by decide⟩

end AuthContext
